import Mathlib

/-!
# direktiv-eventarc-listener

A shallow embedding of `main.go`: the handler `DirektivListener` and the four
functions it is made of (`readCloudEvent`, `logCloudEvent`, `parseCloudEvent`,
`sendCloudEvent`), followed by theorems about them.

The program is glue around library calls.  Calls into the Go standard library
whose result is a function of their arguments (`strings.TrimSuffix`,
`fmt.Sprintf`, `http.Header.Get` and `Add`, `ioutil.ReadAll`, `time.Parse`
with the layout `time.RFC3339`) are given executable models, and so are the
setters of the CloudEvents SDK (`sdk-go/v2`) that `parseCloudEvent` calls,
with what they do to a value before they store it.  Calls whose result
depends on the outside world or on library code that is not modelled
(`os.Getenv`, `json.Marshal`, `url.Parse` and `URL.String`,
`http.DefaultClient.Do`) are fields of a `World` that the functions take as an
argument.  Logging and process exit are recorded in a trace of effects.
-/

namespace Direktiv

/-! ## Strings and bytes -/

/-- Go `string` values, as sequences of characters. -/
abbrev GoString := List Char

/-- Go `[]byte` values. -/
abbrev Bytes := List UInt8

/-- Go `strings.HasSuffix(s, suffix)`:
`len(s) >= len(suffix) && s[len(s)-len(suffix):] == suffix`. -/
def HasSuffix (s suffix : GoString) : Bool :=
  decide (suffix.length ≤ s.length) && (s.drop (s.length - suffix.length) == suffix)

/-- Go `strings.TrimSuffix(s, suffix)`: when `s` has the suffix it is cut off
once, `s[:len(s)-len(suffix)]`; otherwise `s` is returned as it is. -/
def TrimSuffix (s suffix : GoString) : GoString :=
  if HasSuffix s suffix then s.take (s.length - suffix.length) else s

/-- Go `unicode.IsSpace`: the characters with the Unicode property
`White_Space`. -/
def isSpace (c : Char) : Bool :=
  (decide (9 ≤ c.toNat) && decide (c.toNat ≤ 13)) || c.toNat == 32 || c.toNat == 0x85 ||
    c.toNat == 0xA0 || c.toNat == 0x1680 ||
    (decide (0x2000 ≤ c.toNat) && decide (c.toNat ≤ 0x200A)) || c.toNat == 0x2028 ||
    c.toNat == 0x2029 || c.toNat == 0x202F || c.toNat == 0x205F || c.toNat == 0x3000

/-- Go `strings.TrimSpace(s)`: `s` without the white space at its start and at
its end. -/
def TrimSpace (s : GoString) : GoString :=
  ((s.dropWhile isSpace).reverse.dropWhile isSpace).reverse

/-- The character for a six-bit value in the standard base64 alphabet. -/
def base64Char (n : Nat) : UInt8 :=
  if n < 26 then (65 + n).toUInt8
  else if n < 52 then (97 + (n - 26)).toUInt8
  else if n < 62 then (48 + (n - 52)).toUInt8
  else if n = 62 then 43
  else 47

/-- Go `base64.StdEncoding` encoding, with `=` padding. -/
def base64Encode : Bytes → Bytes
  | a :: b :: c :: rest =>
    base64Char (a.toNat / 4) :: base64Char (a.toNat % 4 * 16 + b.toNat / 16) ::
      base64Char (b.toNat % 16 * 4 + c.toNat / 64) :: base64Char (c.toNat % 64) ::
      base64Encode rest
  | [a, b] =>
    [base64Char (a.toNat / 4), base64Char (a.toNat % 4 * 16 + b.toNat / 16),
     base64Char (b.toNat % 16 * 4), 61]
  | [a] => [base64Char (a.toNat / 4), base64Char (a.toNat % 4 * 16), 61, 61]
  | [] => []

/-- Go `json.Marshal` on a `[]byte` that is not nil: the base64 text of the
bytes between double quotes. -/
def jsonMarshalBytes (data : Bytes) : Bytes :=
  34 :: (base64Encode data ++ [34])

/-! ## HTTP headers -/

/-- Go `http.Header`, a map from canonical keys to the values added under
them, as an association list. -/
abbrev Header := List (GoString × List GoString)

/-- The bytes allowed in a header field name (`validHeaderFieldByte` of
`net/textproto`): letters, digits and the token punctuation of RFC 7230. -/
def validHeaderFieldByte (c : Char) : Bool :=
  c.isAlphanum || "!#$%&*+-.^_|~".toList.contains c || c == Char.ofNat 39 || c == Char.ofNat 96

/-- The loop of `canonicalMIMEHeaderKey`: upper case for the first letter and
for each letter after a dash, lower case for the others. -/
def canonicalLoop : Bool → GoString → GoString
  | _, [] => []
  | upper, c :: cs =>
    let c1 := if upper && c.isLower then c.toUpper
              else if !upper && c.isUpper then c.toLower else c
    c1 :: canonicalLoop (c1 == '-') cs

/-- Go `textproto.CanonicalMIMEHeaderKey`: a key with a byte that is not a
valid header field byte is returned unchanged, any other key in canonical
case. -/
def CanonicalMIMEHeaderKey (s : GoString) : GoString :=
  if s.all validHeaderFieldByte then canonicalLoop true s else s

/-- Values stored under an exact map key. -/
def Header.values (h : Header) (k : GoString) : List GoString :=
  match h.lookup k with
  | some vs => vs
  | none => []

/-- Go `Header.Get(key)`: the first value under the canonical form of `key`,
the empty string when there is none. -/
def Header.Get (h : Header) (key : GoString) : GoString :=
  match h.values (CanonicalMIMEHeaderKey key) with
  | v :: _ => v
  | [] => []

/-- Append `v` to the values under the exact key `k`, adding the key when it is
not in the map yet. -/
def Header.append : Header → GoString → GoString → Header
  | [], k, v => [(k, [v])]
  | (k1, vs) :: rest, k, v =>
    if k1 == k then (k1, vs ++ [v]) :: rest else (k1, vs) :: Header.append rest k v

/-- Go `Header.Add(key, value)`: append to the values under the canonical form
of `key`. -/
def Header.Add (h : Header) (key value : GoString) : Header :=
  Header.append h (CanonicalMIMEHeaderKey key) value

/-! ## Time

`time.Time` values, the calendar, `time.Parse` with the layout `time.RFC3339`
and `Time.Format` with the layout `time.RFC3339Nano`. -/

/-- Go `time.Time`: an instant, as seconds since the Unix epoch and
nanoseconds within the second, together with the offset east of UTC, in
seconds, of the location the time is shown in. -/
structure Time where
  sec : Int
  nsec : Nat
  offset : Int
deriving DecidableEq, Repr

/-- Go `Time.Equal`: the two times denote the same instant, whatever their
locations. -/
def Time.Equal (t u : Time) : Prop := t.sec = u.sec ∧ t.nsec = u.nsec

/-- Go `Time.UTC`: the same instant shown in UTC. -/
def Time.UTC (t : Time) : Time := { t with offset := 0 }

/-- Go `isLeap`. -/
def isLeap (year : Int) : Bool :=
  year % 4 == 0 && (year % 100 != 0 || year % 400 == 0)

/-- Go `daysBefore[m]`: the days of a non-leap year that lie before the start
of month `m + 1`. -/
def daysBefore : Nat → Nat
  | 0 => 0
  | 1 => 31
  | 2 => 59
  | 3 => 90
  | 4 => 120
  | 5 => 151
  | 6 => 181
  | 7 => 212
  | 8 => 243
  | 9 => 273
  | 10 => 304
  | 11 => 334
  | _ => 365

/-- Go `daysIn(month, year)`. -/
def daysIn (month : Nat) (year : Int) : Nat :=
  if month = 2 ∧ isLeap year = true then 29 else daysBefore month - daysBefore (month - 1)

/-- Go `daysSinceEpoch(year)`: the days from the epoch to January 1 of `year`,
added up over 400-year, 100-year and 4-year cycles and single years.  The
epoch here is January 1 of year 1; Go's absolute epoch lies a whole number of
400-year cycles before it. -/
def daysSinceEpoch (year : Int) : Int :=
  let y : Int := year - 1
  let n400 : Int := y / 400
  let y1 : Int := y - 400 * n400
  let n100 : Int := y1 / 100
  let y2 : Int := y1 - 100 * n100
  let n4 : Int := y2 / 4
  let y3 : Int := y2 - 4 * n4
  146097 * n400 + 36524 * n100 + 1461 * n4 + 365 * y3

/-- The day count of Go `time.Date`: days from January 1 of year 1 to the given
day, for a month in `1..12` and a day of that month. -/
def dateToDays (year : Int) (month day : Nat) : Int :=
  daysSinceEpoch year + (daysBefore (month - 1) : Int) +
    (if isLeap year && decide (3 ≤ month) then 1 else 0) + ((day : Int) - 1)

/-- The first half of Go `absDate`: the year a day count falls in, and the day
within that year counted from zero; 400-year, 100-year, 4-year cycles and
single years are cut off in turn, where `n - n/4` stands for `n -= n >> 2`. -/
def yearDay (d : Int) : Int × Int :=
  let n400 : Int := d / 146097
  let d1 : Int := d - 146097 * n400
  let c : Int := d1 / 36524
  let n100 : Int := c - c / 4
  let d2 : Int := d1 - 36524 * n100
  let n4 : Int := d2 / 1461
  let d3 : Int := d2 - 1461 * n4
  let q : Int := d3 / 365
  let n1 : Int := q - q / 4
  (400 * n400 + 100 * n100 + 4 * n4 + n1 + 1, d3 - 365 * n1)

/-- The second half of Go `absDate`: month and day of the month from the day
of the year; the leap day is set apart, and the month is estimated as
`day / 31` and moved up by one when the day lies past its end. -/
def monthDay (leap : Bool) (yday : Nat) : Nat × Nat :=
  if leap && decide (yday = 59) then (2, 29)
  else
    let day : Nat := if leap && decide (59 < yday) then yday - 1 else yday
    let month : Nat := day / 31
    if daysBefore (month + 1) ≤ day then (month + 2, day - daysBefore (month + 1) + 1)
    else (month + 1, day - daysBefore month + 1)

/-- Go `absDate`: year, month and day of the month of a day count from
January 1 of year 1. -/
def absDate (d : Int) : Int × Nat × Nat :=
  ((yearDay d).1, monthDay (isLeap (yearDay d).1) (yearDay d).2.toNat)

/-- Days from January 1 of year 1 to January 1, 1970 (the Unix epoch). -/
def unixEpochDays : Int := 719162

/-- Go `time.Date(year, month, day, hour, min, sec, nsec, time.UTC)` for fields
that are in range, where no normalisation takes place. -/
def Date (year : Int) (month day hour min sec nsec : Nat) : Time :=
  { sec := (dateToDays year month day - unixEpochDays) * 86400 + (hour : Int) * 3600 +
      (min : Int) * 60 + (sec : Int)
    nsec := nsec
    offset := 0 }

/-- Go `isDigit`. -/
def isDigit (c : Char) : Bool := decide ('0' ≤ c) && decide (c ≤ '9')

/-- Value of a decimal digit, `int(c - '0')`. -/
def digitVal (c : Char) : Nat := c.toNat - 48

/-- Value of a string of decimal digits. -/
def digitsVal (s : GoString) : Nat := s.foldl (fun x c => x * 10 + digitVal c) 0

/-- The closure `parseUint` inside Go `parseRFC3339`: the string must be all
digits and its value must lie in `[lo, hi]`. -/
def parseUint (s : GoString) (lo hi : Nat) : Option Nat :=
  if s.all isDigit then
    (if lo ≤ digitsVal s ∧ digitsVal s ≤ hi then some (digitsVal s) else none)
  else none

/-- Go `parseNanoseconds` applied to the digits that follow the separator: at
most nine digits count, scaled up to nanoseconds. -/
def parseNanoseconds (digits : GoString) : Nat :=
  digitsVal (digits.take 9) * 10 ^ (9 - (digits.take 9).length)

/-- The fractional second that may follow the seconds field: a separator
accepted by `sep`, then at least one digit; the digits are consumed as far as
they go.  Returns the nanoseconds and the rest of the input. -/
def parseFraction (sep : Char → Bool) (s : GoString) : Nat × GoString :=
  match s with
  | c0 :: c1 :: rest =>
    if sep c0 && isDigit c1 then
      (parseNanoseconds ((c1 :: rest).takeWhile isDigit), (c1 :: rest).dropWhile isDigit)
    else (0, s)
  | _ => (0, s)

/-- Shift a UTC time built from fields read in a zone `zoneOffset` seconds east
of UTC to the instant they denote, and show it in that zone
(`t.addSec(-zoneOffset); t.setLoc(...)`). -/
def Time.inZone (t : Time) (zoneOffset : Int) : Time :=
  { sec := t.sec - zoneOffset, nsec := t.nsec, offset := zoneOffset }

/-- Go `parseRFC3339`, the parser `time.Parse` tries first for the layout
`time.RFC3339`: fixed positions, two-digit fields, `.` before the fraction,
`Z` or a `±hh:mm` offset with `hh ≤ 23` and `mm ≤ 59`, nothing after it. -/
def parseRFC3339 (s : GoString) : Option Time :=
  match s with
  | y1 :: y2 :: y3 :: y4 :: c4 :: m1 :: m2 :: c7 :: d1 :: d2 :: c10 ::
      h1 :: h2 :: c13 :: n1 :: n2 :: c16 :: s1 :: s2 :: rest =>
    (parseUint [y1, y2, y3, y4] 0 9999).bind fun year =>
    (parseUint [m1, m2] 1 12).bind fun month =>
    (parseUint [d1, d2] 1 (daysIn month year)).bind fun day =>
    (parseUint [h1, h2] 0 23).bind fun hour =>
    (parseUint [n1, n2] 0 59).bind fun min =>
    (parseUint [s1, s2] 0 59).bind fun sec =>
    if c4 == '-' && c7 == '-' && c10 == 'T' && c13 == ':' && c16 == ':' then
      let frac := parseFraction (fun c => c == '.') rest
      let t := Date year month day hour min sec frac.1
      match frac.2 with
      | ['Z'] => some t
      | [sg, z1, z2, c3, z4, z5] =>
        (parseUint [z1, z2] 0 23).bind fun hr =>
        (parseUint [z4, z5] 0 59).bind fun mm =>
        if (sg == '-' || sg == '+') && c3 == ':' then
          some (t.inZone (if sg == '-' then -((((hr : Int) * 60 + mm) * 60)) else ((hr : Int) * 60 + mm) * 60))
        else none
      | _ => none
    else none
  | _ => none

/-- Go `getnum(s, fixed)`: one or two leading digits; with `fixed` there must
be two. Returns the number and the rest of the input. -/
def getnum (s : GoString) (fixed : Bool) : Option (Nat × GoString) :=
  match s with
  | c0 :: c1 :: rest =>
    if isDigit c0 then
      (if isDigit c1 then some (digitVal c0 * 10 + digitVal c1, rest)
       else if fixed then none else some (digitVal c0, c1 :: rest))
    else none
  | [c0] => if isDigit c0 && !fixed then some (digitVal c0, []) else none
  | [] => none

/-- Go `skip(value, prefix)` for a one-character prefix that is not a space. -/
def skip (value : GoString) (c : Char) : Option GoString :=
  match value with
  | v :: rest => if v == c then some rest else none
  | [] => none

/-- The zone element `Z07:00` of the general parser: `Z`, or a sign, two
digits, a colon and two digits, where the hours may go up to 24 and the minutes
up to 60.  Returns the offset in seconds and the rest of the input. -/
def parseZone (value : GoString) : Option (Int × GoString) :=
  match value with
  | 'Z' :: rest => some (0, rest)
  | sg :: z1 :: z2 :: c3 :: z4 :: z5 :: rest =>
    if c3 == ':' then
      (getnum [z1, z2] true).bind fun hr =>
      (getnum [z4, z5] true).bind fun mm =>
      if hr.1 ≤ 24 ∧ mm.1 ≤ 60 then
        (if sg == '+' then some ((((hr.1 : Int) * 60 + mm.1) * 60), rest)
         else if sg == '-' then some (-(((hr.1 : Int) * 60 + mm.1) * 60), rest)
         else none)
      else none
    else none
  | _ => none

/-- Go `parse(layout, value, UTC, Local)` for the layout
`"2006-01-02T15:04:05Z07:00"`, the general parser `time.Parse` falls back on:
element by element, four digits of year, `-`, two digits of month, `-`, two
digits of day, `T`, one or two digits of hour, `:`, two digits of minute, `:`,
two digits of second, an optional fraction after `.` or `,`, the zone, and
nothing after it; the day is checked against the month at the end. -/
def parseLayout (value : GoString) : Option Time :=
  match value with
  | y1 :: y2 :: y3 :: y4 :: v1 =>
    if isDigit y1 && isDigit y2 && isDigit y3 && isDigit y4 then
      (skip v1 '-').bind fun v2 =>
      (getnum v2 true).bind fun month =>
      if 1 ≤ month.1 ∧ month.1 ≤ 12 then
        (skip month.2 '-').bind fun v3 =>
        (getnum v3 true).bind fun day =>
        (skip day.2 'T').bind fun v4 =>
        (getnum v4 false).bind fun hour =>
        if hour.1 < 24 then
          (skip hour.2 ':').bind fun v5 =>
          (getnum v5 true).bind fun min =>
          if min.1 < 60 then
            (skip min.2 ':').bind fun v6 =>
            (getnum v6 true).bind fun sec =>
            if sec.1 < 60 then
              let frac := parseFraction (fun c => c == '.' || c == ',') sec.2
              (parseZone frac.2).bind fun zone =>
              if zone.2.isEmpty then
                (if 1 ≤ day.1 ∧ day.1 ≤ daysIn month.1 (digitsVal [y1, y2, y3, y4]) then
                  some ((Date (digitsVal [y1, y2, y3, y4]) month.1 day.1 hour.1 min.1 sec.1 frac.1).inZone zone.1)
                 else none)
              else none
            else none
          else none
        else none
      else none
    else none
  | _ => none

/-- Go `*time.ParseError`, by the layout and the value that did not parse. -/
structure ParseError where
  Layout : GoString
  Value : GoString
deriving DecidableEq, Repr

/-- Go `time.RFC3339`. -/
def RFC3339 : GoString := "2006-01-02T15:04:05Z07:00".toList

/-- Go `time.Parse(time.RFC3339, value)`: `parseRFC3339` first, the general
parser when that one does not accept the value. -/
def timeParse (value : GoString) : Except ParseError Time :=
  match parseRFC3339 value with
  | some t => .ok t
  | none =>
    match parseLayout value with
    | some t => .ok t
    | none => .error { Layout := RFC3339, Value := value }

/-- Decimal digit for a number below ten. -/
def digitChar (d : Nat) : Char := Char.ofNat (48 + d)

/-- The `width` lowest decimal digits of `n`, highest first. -/
def zeroPad : Nat → Nat → GoString
  | 0, _ => []
  | w + 1, n => zeroPad w (n / 10) ++ [digitChar (n % 10)]

/-- Number of decimal digits of `u` (one for zero), by repeated division. -/
def numDigitsAux : Nat → Nat → Nat
  | 0, _ => 1
  | fuel + 1, u => if u < 10 then 1 else numDigitsAux fuel (u / 10) + 1

/-- Go `appendInt(b, x, width)`: a minus sign for a negative number, then its
decimal digits, padded with zeros to `width` digits. -/
def appendInt (x : Int) (width : Nat) : GoString :=
  (if x < 0 then ['-'] else []) ++
    zeroPad (max width (numDigitsAux x.natAbs x.natAbs)) x.natAbs

/-- Drop the zeros at the end of a digit string. -/
def trimZeros (s : GoString) : GoString :=
  (s.reverse.dropWhile (fun c => c == '0')).reverse

/-- Go `appendNano` for the layout element `.999999999`: nothing for zero
nanoseconds, otherwise `.` and nine digits without the zeros at the end. -/
def appendNano (nsec : Nat) : GoString :=
  if nsec = 0 then [] else '.' :: trimZeros (zeroPad 9 nsec)

/-- The zone element `Z07:00` when formatting: `Z` for offset zero, otherwise
the sign and the offset in hours and minutes. -/
def appendZone (offset : Int) : GoString :=
  if offset = 0 then ['Z']
  else
    let zone : Int := Int.tdiv offset 60
    (if zone < 0 then ['-'] else ['+']) ++
      appendInt (Int.tdiv (if zone < 0 then -zone else zone) 60) 2 ++ ':' ::
      appendInt (Int.tmod (if zone < 0 then -zone else zone) 60) 2

/-- Go `t.Year()`: the year of `t` in its location. -/
def Time.Year (t : Time) : Int := (absDate ((t.sec + t.offset) / 86400 + unixEpochDays)).1

/-- Go `t.Format(time.RFC3339Nano)`: the date and the time of day in the
location of `t`, the fraction without trailing zeros, and the zone. -/
def Time.Format (t : Time) : GoString :=
  let abs : Int := t.sec + t.offset
  let date := absDate (abs / 86400 + unixEpochDays)
  let rem : Int := abs % 86400
  appendInt date.1 4 ++ '-' :: appendInt date.2.1 2 ++ '-' :: appendInt date.2.2 2 ++ 'T' ::
    appendInt (rem / 3600) 2 ++ ':' :: appendInt (rem % 3600 / 60) 2 ++ ':' ::
    appendInt (rem % 60) 2 ++ appendNano t.nsec ++ appendZone t.offset

/-- Go's zero `time.Time`, January 1 of year 1 at 00:00:00 UTC. -/
def Time.zero : Time := { sec := -62135596800, nsec := 0, offset := 0 }

/-- Go `t.IsZero()`: the instant is January 1 of year 1 at 00:00:00 UTC,
whatever the location. -/
def Time.IsZero (t : Time) : Bool := t.sec == -62135596800 && t.nsec == 0

/-! ## Errors, readers and the outside world -/

/-- Go `error` values the program passes on: the parse error of `time.Parse`,
or any other error produced outside the program. -/
inductive Error where
  | parse (e : ParseError)
  | other (msg : GoString)
deriving DecidableEq, Repr

/-- An `io.Reader` as `ioutil.ReadAll` sees it: the bytes it yields, and the
error that ends the reading, if there is one (none for a plain end of
input). -/
structure Reader where
  data : Bytes
  err : Option Error
deriving DecidableEq, Repr

/-- Go `ioutil.ReadAll(r)`: the bytes read and the error met, if any. -/
def ReadAll (r : Reader) : Bytes × Option Error := (r.data, r.err)

/-- The struct `CE` of `main.go`. -/
structure CE where
  Id : GoString
  Source : GoString
  Specversion : GoString
  Data : Bytes
  Ctype : GoString
  Ctime : Time
deriving DecidableEq, Repr

/-- The inbound `*http.Request`, by the parts the handler reads. -/
structure Request where
  Header : Header
  Body : Reader
deriving DecidableEq, Repr

/-- The version of the context an SDK event holds: the SDK has one context
type for spec version `0.3` and one for `1.0`. -/
inductive ContextVersion where
  | V03
  | V1
deriving DecidableEq, Repr

/-- The SDK's `cloudevents.Event` (`sdk-go/v2`), by the parts `main.go`
sets: the context with its version, id, source (as the text of the URI
reference it holds), type, time (`nil` when there is none) and data content
type (`nil` when there is none); the encoded data with the flag that says
whether they are written as base64; and the names of the attributes for which
a setter recorded an error (`FieldErrors`). -/
structure Event where
  Context : ContextVersion
  ID : GoString
  Source : GoString
  EventType : GoString
  Time : Option Time
  DataContentType : Option GoString
  DataEncoded : Bytes
  DataBase64 : Bool
  FieldErrors : List GoString
deriving DecidableEq, Repr

/-- The SDK's `cloudevents.ApplicationJSON`. -/
def ApplicationJSON : GoString := "application/json".toList

/-- The SDK's `event.SpecVersion()`: the version of the context. -/
def Event.SpecVersion (e : Event) : GoString :=
  match e.Context with
  | .V03 => "0.3".toList
  | .V1 => "1.0".toList

/-- The SDK's `event.Data()`: the encoded data. -/
def Event.Data (e : Event) : Bytes := e.DataEncoded

/-- The SDK's `event.fieldError(field, err)`: record that the attribute was
refused. -/
def Event.fieldError (e : Event) (field : GoString) : Event :=
  { e with FieldErrors := if e.FieldErrors.contains field then e.FieldErrors
                          else e.FieldErrors ++ [field] }

/-- The SDK's `event.fieldOK(field)`: forget an error recorded for the
attribute. -/
def Event.fieldOK (e : Event) (field : GoString) : Event :=
  { e with FieldErrors := e.FieldErrors.filter (fun f => f != field) }

/-- The SDK's `cloudevents.NewEvent()`: a context of version `1.0`, nothing
else set. -/
def NewEvent : Event :=
  { Context := .V1, ID := [], Source := [], EventType := [], Time := none,
    DataContentType := none, DataEncoded := [], DataBase64 := false, FieldErrors := [] }

/-- The SDK's `event.SetID`: the id is trimmed of surrounding white space; an
id that is empty after trimming is refused and the id stays as it was. -/
def Event.SetID (e : Event) (id : GoString) : Event :=
  if (TrimSpace id).isEmpty then e.fieldError "id".toList
  else { e.fieldOK "id".toList with ID := TrimSpace id }

/-- The SDK's `event.SetSpecVersion`: `0.3` and `1.0` switch the context to
that version, keeping its attributes; any other value is refused and the
context stays as it was. -/
def Event.SetSpecVersion (e : Event) (v : GoString) : Event :=
  if v = "0.3".toList then { e.fieldOK "specversion".toList with Context := .V03 }
  else if v = "1.0".toList then { e.fieldOK "specversion".toList with Context := .V1 }
  else e.fieldError "specversion".toList

/-- The SDK's `event.SetType`: the type is trimmed of surrounding white
space. -/
def Event.SetType (e : Event) (t : GoString) : Event :=
  { e.fieldOK "type".toList with EventType := TrimSpace t }

/-- The SDK's `event.SetTime`: the zero time clears the attribute, any other
time is stored. -/
def Event.SetTime (e : Event) (t : Direktiv.Time) : Event :=
  { e.fieldOK "time".toList with Time := if t.IsZero then none else some t }

/-- The SDK's `event.SetDataContentType`: the value is trimmed, and an empty
one clears the attribute. -/
def Event.SetDataContentType (e : Event) (ct : GoString) : Event :=
  { e.fieldOK "datacontenttype".toList with
    DataContentType := if (TrimSpace ct).isEmpty then none else some (TrimSpace ct) }

/-- The SDK's JSON data codec applied to a `[]byte`: bytes that start with a
quote, a brace or a bracket are taken to be encoded already and are returned
as they are; any other `[]byte` goes through `json.Marshal`. -/
def jsonEncodeBytes (data : Bytes) : Bytes :=
  match data with
  | b :: _ => if b = 34 ∨ b = 123 ∨ b = 91 then data else jsonMarshalBytes data
  | [] => jsonMarshalBytes data

/-- The SDK's `event.SetData(contentType, data)` for data of type `[]byte` and
the content type `application/json`: the content type is set; with a context
of version `1.0` the bytes are stored as they are and flagged as base64, with
a context of version `0.3` (`legacySetData`) they are stored as the JSON data
codec encodes them. -/
def Event.SetData (e : Event) (contentType : GoString) (data : Bytes) : Event :=
  match e.Context with
  | .V1 => { e.SetDataContentType contentType with DataEncoded := data, DataBase64 := true }
  | .V03 => { e.SetDataContentType contentType with
              DataEncoded := jsonEncodeBytes data, DataBase64 := false }

/-- The SDK's `types.Timestamp.String()`, the text the envelope writes for its
time: the time in UTC in the layout `time.RFC3339Nano`. -/
def TimestampString (t : Time) : GoString := t.UTC.Format

/-- The outbound `*http.Request`: method, the URL string given to
`http.NewRequest`, headers and body. -/
structure OutRequest where
  Method : GoString
  URL : GoString
  Header : Header
  Body : Bytes
deriving DecidableEq, Repr

/-- The downstream `*http.Response`, by status code and body. -/
structure Response where
  StatusCode : Nat
  Body : Reader
deriving DecidableEq, Repr

/-- What the program asks of the outside world. -/
structure World where
  /-- Result of `os.Getenv`. -/
  Getenv : GoString → GoString
  /-- Result of `json.Marshal` on a `*CE`. -/
  marshalCE : CE → Except Error Bytes
  /-- Result of `json.Marshal` on a `cloudevents.Event`. -/
  marshalEvent : Event → Except Error Bytes
  /-- The error of `url.Parse`, if the string does not parse; `url.Parse` is
  called inside `http.NewRequest` and inside the SDK's `SetSource`. -/
  urlParse : GoString → Option Error
  /-- The text `u.String()` of the URL `u` that `url.Parse` returns for a
  string it accepts. -/
  urlString : GoString → GoString
  /-- Result of `http.DefaultClient.Do`. -/
  Do : OutRequest → Except Error Response

/-- The SDK's `event.SetSource`: the value goes through `url.Parse`; when it
parses, the source is the URI reference read, whose text is `u.String()`;
when it does not, the value is refused and the source stays as it was. -/
def Event.SetSource (w : World) (e : Event) (source : GoString) : Event :=
  match w.urlParse source with
  | some _ => e.fieldError "source".toList
  | none => { e.fieldOK "source".toList with Source := w.urlString source }

/-- Go `http.NewRequest(method, url, body)` for the method `POST`: fails when
the URL does not parse, otherwise a request with no headers yet. -/
def NewRequest (w : World) (method url : GoString) (body : Bytes) : Except Error OutRequest :=
  match w.urlParse url with
  | some e => .error e
  | none => .ok { Method := method, URL := url, Header := [], Body := body }

/-- What the handler does that can be observed from outside, in order. -/
inductive Effect where
  /-- A call `log.Printf(format, arg)` with a one-argument format. -/
  | logPrintf (format : GoString) (arg : Bytes)
  /-- A call `log.Print(err)`. -/
  | logPrint (err : Error)
  /-- A call `os.Exit(code)`: the process ends. -/
  | osExit (code : Nat)
  /-- A call `http.DefaultClient.Do(req)`. -/
  | httpDo (req : OutRequest)
deriving DecidableEq, Repr

/-- Go `log.Fatal(err)`: `log.Print(err)` followed by `os.Exit(1)`. -/
def logFatal (err : Error) : List Effect := [.logPrint err, .osExit 1]

/-! ## The program -/

/-- Format of the log line for a received event. -/
def receivedFormat : GoString := "Cloud event received: \n%s".toList

/-- Format of the log line for the downstream response. -/
def responseFormat : GoString := "Response of Direktiv: \n%s".toList

/-- `logCloudEvent` of `main.go`: marshal the record and log it; the marshal
error is returned when there is one. -/
def logCloudEvent (w : World) (ce : CE) : List Effect × Option Error :=
  match w.marshalCE ce with
  | .error err => ([], some err)
  | .ok data => ([.logPrintf receivedFormat data], none)

/-- `readCloudEvent` of `main.go`: four headers are copied as they are, the
`ce-time` header is parsed, and the body is read in full.  An error stands for
the Go result `(nil, err)`. -/
def readCloudEvent (r : Request) : Except Error CE :=
  let ce : CE :=
    { Id := r.Header.Get "ce-id".toList
      Source := r.Header.Get "ce-source".toList
      Specversion := r.Header.Get "ce-specversion".toList
      Ctype := r.Header.Get "ce-type".toList
      Data := []
      Ctime := Time.zero }
  match timeParse (r.Header.Get "ce-time".toList) with
  | .error err => .error (.parse err)
  | .ok t =>
    match ReadAll r.Body with
    | (_, some err) => .error err
    | (body, none) => .ok { ce with Ctime := t, Data := body }

/-- `parseCloudEvent` of `main.go`: a new event on which the six setters are
called in turn. -/
def parseCloudEvent (w : World) (ce : CE) : Event :=
  let event := NewEvent
  let event := event.SetID ce.Id
  let event := Event.SetSource w event ce.Source
  let event := event.SetSpecVersion ce.Specversion
  let event := event.SetType ce.Ctype
  let event := event.SetTime ce.Ctime
  event.SetData ApplicationJSON ce.Data

/-- The URL `sendCloudEvent` builds with
`fmt.Sprintf("%s/api/namespaces/%s/broadcast", endpoint, namespace)`. -/
def broadcastURL (endpoint namespace_name : GoString) : GoString :=
  endpoint ++ "/api/namespaces/".toList ++ namespace_name ++ "/broadcast".toList

/-- `sendCloudEvent` of `main.go`: the calls of `http.DefaultClient.Do` it
makes, and its result. -/
def sendCloudEvent (w : World) (event : Event) : List Effect × Except Error Bytes :=
  match w.marshalEvent event with
  | .error err => ([], .error err)
  | .ok data =>
    match NewRequest w "POST".toList
        (broadcastURL (w.Getenv "DIREKTIV_ENDPOINT".toList) (w.Getenv "DIREKTIV_NAMESPACE".toList))
        data with
    | .error err => ([], .error err)
    | .ok req =>
      let token := TrimSuffix (w.Getenv "DIREKTIV_TOKEN".toList) "\n".toList
      let req := { req with Header := req.Header.Add "direktiv-token".toList token }
      let contentType := "application/cloudevents+json; charset=utf-8".toList
      let req := { req with Header := req.Header.Add "Content-Type".toList contentType }
      match w.Do req with
      | .error err => ([.httpDo req], .error err)
      | .ok resp =>
        match ReadAll resp.Body with
        | (_, some err) => ([.httpDo req], .error err)
        | (data, none) => ([.httpDo req], .ok data)

/-- `DirektivListener` of `main.go`, as the trace of its effects.  The
statement `return` after each `log.Fatal` is never reached, since `log.Fatal`
ends the process. -/
def DirektivListener (w : World) (r : Request) : List Effect :=
  match readCloudEvent r with
  | .error err => logFatal err
  | .ok ce =>
    match logCloudEvent w ce with
    | (fx1, some err) => fx1 ++ logFatal err
    | (fx1, none) =>
      match sendCloudEvent w (parseCloudEvent w ce) with
      | (fx2, .error err) => fx1 ++ fx2 ++ logFatal err
      | (fx2, .ok data) => fx1 ++ fx2 ++ [.logPrintf responseFormat data]

/-! ## Concrete inputs, and the shape of an RFC 3339 date-time -/

/-- A request with the given `ce-time` header and body, and the other four
headers of the example in the specification. -/
def exampleRequest (ceTime : GoString) (body : Reader) : Request :=
  { Header := [("Ce-Id".toList, ["evt-1".toList]),
               ("Ce-Source".toList, ["src-a".toList]),
               ("Ce-Specversion".toList, ["1.0".toList]),
               ("Ce-Type".toList, ["audit.log".toList]),
               ("Ce-Time".toList, [ceTime])]
    Body := body }

/-- A request with the five headers and the body given. -/
def requestOf (id source specversion type_name ceTime : GoString) (body : Reader) : Request :=
  { Header := [("Ce-Id".toList, [id]),
               ("Ce-Source".toList, [source]),
               ("Ce-Specversion".toList, [specversion]),
               ("Ce-Type".toList, [type_name]),
               ("Ce-Time".toList, [ceTime])]
    Body := body }

/-- The bytes of the JSON text with the one member `k` of value `v`. -/
def exampleBody : Bytes := [123, 34, 107, 34, 58, 34, 118, 34, 125]

/-- A reader that yields `data` and ends normally. -/
def readerOf (data : Bytes) : Reader := { data := data, err := none }

/-- A reader that fails with an error after yielding `data`. -/
def brokenReader (data : Bytes) : Reader :=
  { data := data, err := some (.other "unexpected EOF".toList) }

/-- A world with the given token and downstream behaviour; the endpoint is
`http://direktiv`, the namespace `ns`, marshalling yields fixed bytes, and
every URL parses and has itself as its text. -/
def exampleWorld (token : GoString) (downstream : Except Error Response) : World :=
  { Getenv := fun k =>
      if k = "DIREKTIV_TOKEN".toList then token
      else if k = "DIREKTIV_ENDPOINT".toList then "http://direktiv".toList
      else if k = "DIREKTIV_NAMESPACE".toList then "ns".toList
      else []
    marshalCE := fun _ => .ok [1]
    marshalEvent := fun _ => .ok [2]
    urlParse := fun _ => none
    urlString := fun s => s
    Do := fun _ => downstream }

/-- The request `sendCloudEvent` builds in `exampleWorld` for a token whose
header value is `headerToken`. -/
def exampleOutRequest (headerToken : GoString) : OutRequest :=
  { Method := "POST".toList
    URL := "http://direktiv/api/namespaces/ns/broadcast".toList
    Header := [("Direktiv-Token".toList, [headerToken]),
               ("Content-Type".toList, ["application/cloudevents+json; charset=utf-8".toList])]
    Body := [2] }

/-- The error a refused connection gives. -/
def connectionRefused : Error := .other "connection refused".toList

/-- The record with the given fields. -/
def recordOf (id source specversion type_name : GoString) (t : Time) (data : Bytes) : CE :=
  { Id := id
    Source := source
    Specversion := specversion
    Data := data
    Ctype := type_name
    Ctime := t }

/-- The world of the examples about the envelope: every URL parses and has
itself as its text. -/
def envelopeWorld : World := exampleWorld [] (.error connectionRefused)

/-- The syntactic shape of an RFC 3339 `date-time` (section 5.6 of the RFC,
with upper-case `T` and `Z`): `dddd-dd-ddTdd:dd:dd`, an optional `.` with at
least one digit, then `Z` or a sign, `dd:dd`. -/
def rfc3339Shape (s : GoString) : Bool :=
  match s with
  | y1 :: y2 :: y3 :: y4 :: '-' :: m1 :: m2 :: '-' :: d1 :: d2 :: 'T' ::
      h1 :: h2 :: ':' :: n1 :: n2 :: ':' :: s1 :: s2 :: rest =>
    [y1, y2, y3, y4, m1, m2, d1, d2, h1, h2, n1, n2, s1, s2].all isDigit &&
      (match (match rest with
              | '.' :: c :: more => if isDigit c then more.dropWhile isDigit else rest
              | _ => rest) with
       | ['Z'] => true
       | [sg, z1, z2, ':', z4, z5] =>
         (sg == '+' || sg == '-') && [z1, z2, z4, z5].all isDigit
       | _ => false)
  | _ => false

/-! ## Lemmas on the library models -/

theorem hasSuffix_append (u s : GoString) : HasSuffix (u ++ s) s = true := by
  simp [HasSuffix]

theorem trimSuffix_append (u s : GoString) : TrimSuffix (u ++ s) s = u := by
  simp [TrimSuffix, hasSuffix_append]

theorem trimSuffix_of_not_suffix (t s : GoString) (h : ∀ u, t ≠ u ++ s) :
    TrimSuffix t s = t := by
  unfold TrimSuffix
  split
  · rename_i hs
    exfalso
    simp only [HasSuffix, Bool.and_eq_true, decide_eq_true_eq, beq_iff_eq] at hs
    apply h (t.take (t.length - s.length))
    conv_lhs => rw [← List.take_append_drop (t.length - s.length) t]
    rw [hs.2]
  · rfl

theorem newRequest_ok (w : World) (method url : GoString) (body : Bytes) (req : OutRequest)
    (h : NewRequest w method url body = .ok req) :
    w.urlParse url = none ∧ req = { Method := method, URL := url, Header := [], Body := body } := by
  unfold NewRequest at h
  cases hu : w.urlParse url with
  | some e => rw [hu] at h; cases h
  | none => rw [hu] at h; cases h; exact ⟨rfl, rfl⟩

theorem header_add_two (tok ct : GoString) :
    (Header.Add (Header.Add [] "direktiv-token".toList tok) "Content-Type".toList ct)
      = [("Direktiv-Token".toList, [tok]), ("Content-Type".toList, [ct])] := by
  have h1 : CanonicalMIMEHeaderKey "direktiv-token".toList = "Direktiv-Token".toList := by decide
  have h2 : CanonicalMIMEHeaderKey "Content-Type".toList = "Content-Type".toList := by decide
  have h3 : ("Direktiv-Token".toList == "Content-Type".toList) = false := by decide
  unfold Header.Add
  rw [h1, h2]
  simp only [Header.append, h3, Bool.false_eq_true, if_false]

/-- The request `sendCloudEvent` hands to `http.DefaultClient.Do`, whenever it
hands one: the envelope was marshalled, the URL parsed, and the request is the
`POST` with the two headers; it is the only effect. -/
theorem sendCloudEvent_request (w : World) (event : Event) (req : OutRequest)
    (h : Effect.httpDo req ∈ (sendCloudEvent w event).1) :
    ∃ data, w.marshalEvent event = .ok data ∧
      req = { Method := "POST".toList
              URL := broadcastURL (w.Getenv "DIREKTIV_ENDPOINT".toList)
                (w.Getenv "DIREKTIV_NAMESPACE".toList)
              Header := [("Direktiv-Token".toList,
                          [TrimSuffix (w.Getenv "DIREKTIV_TOKEN".toList) "\n".toList]),
                         ("Content-Type".toList,
                          ["application/cloudevents+json; charset=utf-8".toList])]
              Body := data } ∧
      (sendCloudEvent w event).1 = [Effect.httpDo req] := by
  unfold sendCloudEvent at h ⊢
  cases hm : w.marshalEvent event with
  | error e => rw [hm] at h; exact absurd h (List.not_mem_nil _)
  | ok data =>
    refine ⟨data, rfl, ?_⟩
    rw [hm] at h
    dsimp only at h ⊢
    cases hn : NewRequest w "POST".toList (broadcastURL (w.Getenv "DIREKTIV_ENDPOINT".toList)
        (w.Getenv "DIREKTIV_NAMESPACE".toList)) data with
    | error e => rw [hn] at h; exact absurd h (List.not_mem_nil _)
    | ok req0 =>
      rw [hn] at h
      dsimp only at h ⊢
      obtain ⟨-, hr0⟩ := newRequest_ok _ _ _ _ _ hn
      subst hr0
      dsimp only at h ⊢
      rw [header_add_two] at h ⊢
      have hreq : ∀ r, Effect.httpDo req ∈ [Effect.httpDo r] → req = r := by
        intro r hr
        rw [List.mem_singleton] at hr
        exact Effect.httpDo.inj hr
      split at h
      · have := hreq _ h; subst this; exact ⟨rfl, rfl⟩
      · split at h
        · have := hreq _ h; subst this; exact ⟨rfl, rfl⟩
        · have := hreq _ h; subst this; exact ⟨rfl, rfl⟩

theorem sendCloudEvent_cases (w : World) (event : Event) :
    ((sendCloudEvent w event).1 = [] ∧ ∃ e, (sendCloudEvent w event).2 = .error e) ∨
    ∃ req, (sendCloudEvent w event).1 = [Effect.httpDo req] ∧
      ((∃ e, w.Do req = .error e ∧ (sendCloudEvent w event).2 = .error e) ∨
       (∃ resp e, w.Do req = .ok resp ∧ resp.Body.err = some e ∧
          (sendCloudEvent w event).2 = .error e) ∨
       (∃ resp, w.Do req = .ok resp ∧ resp.Body.err = none ∧
          (sendCloudEvent w event).2 = .ok resp.Body.data)) := by
  unfold sendCloudEvent
  cases hm : w.marshalEvent event with
  | error e => exact Or.inl ⟨rfl, e, rfl⟩
  | ok data =>
    dsimp only
    cases hn : NewRequest w "POST".toList (broadcastURL (w.Getenv "DIREKTIV_ENDPOINT".toList)
        (w.Getenv "DIREKTIV_NAMESPACE".toList)) data with
    | error e => exact Or.inl ⟨rfl, e, rfl⟩
    | ok req0 =>
      dsimp only
      right
      cases hd : w.Do (OutRequest.mk req0.Method req0.URL
          ((req0.Header.Add "direktiv-token".toList
            (TrimSuffix (w.Getenv "DIREKTIV_TOKEN".toList) "\n".toList)).Add
              "Content-Type".toList "application/cloudevents+json; charset=utf-8".toList)
          req0.Body) with
      | error e => exact ⟨_, rfl, Or.inl ⟨e, hd, rfl⟩⟩
      | ok resp =>
        dsimp only [ReadAll]
        cases he : resp.Body.err with
        | some e => exact ⟨_, rfl, Or.inr (Or.inl ⟨resp, e, hd, he, rfl⟩)⟩
        | none => exact ⟨_, rfl, Or.inr (Or.inr ⟨resp, hd, he, rfl⟩)⟩

theorem listener_cases (w : World) (r : Request) :
    (∃ e, readCloudEvent r = .error e ∧ DirektivListener w r = [.logPrint e, .osExit 1]) ∨
    (∃ ce e, readCloudEvent r = .ok ce ∧ w.marshalCE ce = .error e ∧
        DirektivListener w r = [.logPrint e, .osExit 1]) ∨
    (∃ ce d e, readCloudEvent r = .ok ce ∧ w.marshalCE ce = .ok d ∧
        (sendCloudEvent w (parseCloudEvent w ce)).2 = .error e ∧
        DirektivListener w r = .logPrintf receivedFormat d ::
          ((sendCloudEvent w (parseCloudEvent w ce)).1 ++ [.logPrint e, .osExit 1])) ∨
    (∃ ce d data, readCloudEvent r = .ok ce ∧ w.marshalCE ce = .ok d ∧
        (sendCloudEvent w (parseCloudEvent w ce)).2 = .ok data ∧
        DirektivListener w r = .logPrintf receivedFormat d ::
          ((sendCloudEvent w (parseCloudEvent w ce)).1 ++ [.logPrintf responseFormat data])) := by
  unfold DirektivListener
  cases hr : readCloudEvent r with
  | error e => exact Or.inl ⟨e, rfl, rfl⟩
  | ok ce =>
    right
    dsimp only [logCloudEvent]
    cases hm : w.marshalCE ce with
    | error e => exact Or.inl ⟨ce, e, rfl, hm, rfl⟩
    | ok d =>
      right
      dsimp only
      cases hs : sendCloudEvent w (parseCloudEvent w ce) with
      | mk fx res =>
        cases res with
        | error e => exact Or.inl ⟨ce, d, e, rfl, hm, by rw [hs], by rw [hs]; rfl⟩
        | ok data => exact Or.inr ⟨ce, d, data, rfl, hm, by rw [hs], by rw [hs]; rfl⟩

theorem readCloudEvent_of_parse_error (r : Request) (e : ParseError)
    (h : timeParse (r.Header.Get "ce-time".toList) = .error e) :
    readCloudEvent r = .error (.parse e) := by
  unfold readCloudEvent
  rw [h]

theorem readCloudEvent_of_read_error (r : Request) (t : Time) (e : Error)
    (h : timeParse (r.Header.Get "ce-time".toList) = .ok t) (hb : r.Body.err = some e) :
    readCloudEvent r = .error e := by
  unfold readCloudEvent
  rw [h]
  simp only [ReadAll, hb]

theorem readCloudEvent_of_ok (r : Request) (t : Time)
    (h : timeParse (r.Header.Get "ce-time".toList) = .ok t) (hb : r.Body.err = none) :
    readCloudEvent r = .ok
      { Id := r.Header.Get "ce-id".toList
        Source := r.Header.Get "ce-source".toList
        Specversion := r.Header.Get "ce-specversion".toList
        Data := r.Body.data
        Ctype := r.Header.Get "ce-type".toList
        Ctime := t } := by
  unfold readCloudEvent
  rw [h]
  simp only [ReadAll, hb]

theorem readCloudEvent_ok_inv (r : Request) (ce : CE) (h : readCloudEvent r = .ok ce) :
    timeParse (r.Header.Get "ce-time".toList) = .ok ce.Ctime ∧ r.Body.err = none ∧
    ce = { Id := r.Header.Get "ce-id".toList
           Source := r.Header.Get "ce-source".toList
           Specversion := r.Header.Get "ce-specversion".toList
           Data := r.Body.data
           Ctype := r.Header.Get "ce-type".toList
           Ctime := ce.Ctime } := by
  cases hp : timeParse (r.Header.Get "ce-time".toList) with
  | error e => rw [readCloudEvent_of_parse_error r e hp] at h; cases h
  | ok t =>
    cases hb : r.Body.err with
    | some e => rw [readCloudEvent_of_read_error r t e hp hb] at h; cases h
    | none =>
      rw [readCloudEvent_of_ok r t hp hb] at h
      cases h
      exact ⟨rfl, rfl, rfl⟩

/-! ## The calendar -/

theorem daysSinceEpoch_cycles (n400 n100 n4 n1 : Int)
    (h100 : 0 ≤ n100 ∧ n100 ≤ 3) (h4 : 0 ≤ n4 ∧ n4 ≤ 24) (h1 : 0 ≤ n1 ∧ n1 ≤ 3) :
    daysSinceEpoch (400 * n400 + 100 * n100 + 4 * n4 + n1 + 1) =
      146097 * n400 + 36524 * n100 + 1461 * n4 + 365 * n1 := by
  simp only [daysSinceEpoch]
  have e1 : (400 * n400 + 100 * n100 + 4 * n4 + n1 + 1 - 1) / 400 = n400 := by omega
  rw [e1]
  have e2 : (400 * n400 + 100 * n100 + 4 * n4 + n1 + 1 - 1 - 400 * n400) / 100 = n100 := by omega
  rw [e2]
  have e3 : (400 * n400 + 100 * n100 + 4 * n4 + n1 + 1 - 1 - 400 * n400 - 100 * n100) / 4 = n4 := by
    omega
  rw [e3]
  omega

theorem isLeap_cycles (n400 n100 n4 n1 : Int)
    (h100 : 0 ≤ n100 ∧ n100 ≤ 3) (h4 : 0 ≤ n4 ∧ n4 ≤ 24) (h1 : 0 ≤ n1 ∧ n1 ≤ 3) :
    isLeap (400 * n400 + 100 * n100 + 4 * n4 + n1 + 1) = true ↔
      (n1 = 3 ∧ (n4 < 24 ∨ n100 = 3)) := by
  simp only [isLeap, Bool.and_eq_true, Bool.or_eq_true, beq_iff_eq, bne_iff_ne, ne_eq]
  omega

theorem yearDay_cycles (n400 n100 n4 n1 yday : Int)
    (h100 : 0 ≤ n100 ∧ n100 ≤ 3) (h4 : 0 ≤ n4 ∧ n4 ≤ 24) (h1 : 0 ≤ n1 ∧ n1 ≤ 3)
    (hy : 0 ≤ yday ∧ yday ≤ 365) (hl : yday = 365 → n1 = 3 ∧ (n4 < 24 ∨ n100 = 3)) :
    yearDay (146097 * n400 + 36524 * n100 + 1461 * n4 + 365 * n1 + yday) =
      (400 * n400 + 100 * n100 + 4 * n4 + n1 + 1, yday) := by
  simp only [yearDay]
  have e1 : (146097 * n400 + 36524 * n100 + 1461 * n4 + 365 * n1 + yday) / 146097 = n400 := by
    omega
  rw [e1]
  have hr3 : 0 ≤ 365 * n1 + yday ∧ 365 * n1 + yday ≤ 1460 := by omega
  have hr2 : 0 ≤ 1461 * n4 + 365 * n1 + yday ∧ 1461 * n4 + 365 * n1 + yday ≤ 36524 ∧
      (1461 * n4 + 365 * n1 + yday = 36524 → n100 = 3) := by omega
  have e2 : ∀ c : Int, c = (146097 * n400 + 36524 * n100 + 1461 * n4 + 365 * n1 + yday
      - 146097 * n400) / 36524 → c - c / 4 = n100 := by
    intro c hc
    by_cases hlt : 1461 * n4 + 365 * n1 + yday < 36524
    · have : c = n100 := by omega
      omega
    · have : c = 4 := by omega
      omega
  rw [e2 _ rfl]
  have e3 : (146097 * n400 + 36524 * n100 + 1461 * n4 + 365 * n1 + yday - 146097 * n400
      - 36524 * n100) / 1461 = n4 := by omega
  rw [e3]
  have e4 : ∀ q : Int, q = (146097 * n400 + 36524 * n100 + 1461 * n4 + 365 * n1 + yday
      - 146097 * n400 - 36524 * n100 - 1461 * n4) / 365 → q - q / 4 = n1 := by
    intro q hq
    by_cases hlt : yday < 365
    · have : q = n1 := by omega
      omega
    · have : q = 4 := by omega
      omega
  rw [e4 _ rfl]
  refine Prod.ext rfl ?_
  show _ - _ = yday
  omega

theorem days_cycles (d : Int) :
    ∃ n400 n100 n4 n1 yday : Int, (0 ≤ n100 ∧ n100 ≤ 3) ∧ (0 ≤ n4 ∧ n4 ≤ 24) ∧
      (0 ≤ n1 ∧ n1 ≤ 3) ∧ (0 ≤ yday ∧ yday ≤ 365) ∧
      (yday = 365 → n1 = 3 ∧ (n4 < 24 ∨ n100 = 3)) ∧
      d = 146097 * n400 + 36524 * n100 + 1461 * n4 + 365 * n1 + yday := by
  obtain ⟨n400, d1, hd, h1⟩ : ∃ n400 d1 : Int, d = 146097 * n400 + d1 ∧ 0 ≤ d1 ∧ d1 < 146097 :=
    ⟨d / 146097, d % 146097, by omega, by omega, by omega⟩
  obtain ⟨n100, d2, hd2, hn, h2, h2b⟩ : ∃ n100 d2 : Int, d1 = 36524 * n100 + d2 ∧
      (0 ≤ n100 ∧ n100 ≤ 3) ∧ (0 ≤ d2 ∧ d2 ≤ 36524) ∧ (d2 = 36524 → n100 = 3) := by
    by_cases hc : d1 < 109572
    · exact ⟨d1 / 36524, d1 % 36524, by omega, by omega, by omega, by omega⟩
    · exact ⟨3, d1 - 109572, by omega, by omega, by omega, by omega⟩
  obtain ⟨n4, d3, hd3, hn4, h3, h3b⟩ : ∃ n4 d3 : Int, d2 = 1461 * n4 + d3 ∧
      (0 ≤ n4 ∧ n4 ≤ 24) ∧ (0 ≤ d3 ∧ d3 ≤ 1460) ∧ (n4 = 24 → d3 = 1460 → n100 = 3) :=
    ⟨d2 / 1461, d2 % 1461, by omega, by omega, by omega, by omega⟩
  obtain ⟨n1, yday, hd4, hn1, h4, h4b⟩ : ∃ n1 yday : Int, d3 = 365 * n1 + yday ∧
      (0 ≤ n1 ∧ n1 ≤ 3) ∧ (0 ≤ yday ∧ yday ≤ 365) ∧ (yday = 365 → n1 = 3) := by
    by_cases hc : d3 < 1095
    · exact ⟨d3 / 365, d3 % 365, by omega, by omega, by omega, by omega⟩
    · exact ⟨3, d3 - 1095, by omega, by omega, by omega, by omega⟩
  refine ⟨n400, n100, n4, n1, yday, hn, hn4, hn1, h4, ?_, by omega⟩
  intro hy
  omega

/-- The year and day of the year of a day count add up to it again, and the
day of the year fits the year. -/
theorem yearDay_spec (d : Int) :
    daysSinceEpoch (yearDay d).1 + (yearDay d).2 = d ∧ 0 ≤ (yearDay d).2 ∧
      (yearDay d).2 ≤ 365 ∧ ((yearDay d).2 = 365 → isLeap (yearDay d).1 = true) := by
  obtain ⟨n400, n100, n4, n1, yday, h100, h4, h1, hy, hl, rfl⟩ := days_cycles d
  rw [yearDay_cycles n400 n100 n4 n1 yday h100 h4 h1 hy hl]
  refine ⟨?_, hy.1, hy.2, ?_⟩
  · show daysSinceEpoch _ + yday = _
    rw [daysSinceEpoch_cycles n400 n100 n4 n1 h100 h4 h1]
  · intro h
    exact (isLeap_cycles n400 n100 n4 n1 h100 h4 h1).mpr (hl h)

set_option maxRecDepth 100000 in
set_option synthInstance.maxSize 2048 in
theorem monthDay_inverse_table :
    ∀ leap : Bool, ∀ yday < 366, (yday = 365 → leap = true) →
      1 ≤ (monthDay leap yday).1 ∧ (monthDay leap yday).1 ≤ 12 ∧
      1 ≤ (monthDay leap yday).2 ∧
      (monthDay leap yday).2 ≤ (if (monthDay leap yday).1 = 2 ∧ leap = true then 29
        else daysBefore (monthDay leap yday).1 - daysBefore ((monthDay leap yday).1 - 1)) ∧
      daysBefore ((monthDay leap yday).1 - 1) +
        (if leap && decide (3 ≤ (monthDay leap yday).1) then 1 else 0) +
        ((monthDay leap yday).2 - 1) = yday := by
  intro leap
  cases leap <;> decide

theorem daysIn_le (month : Nat) (year : Int) : daysIn month year ≤ 31 := by
  unfold daysIn
  split
  · omega
  · have h : ∀ m : Nat, daysBefore m - daysBefore (m - 1) ≤ 31 := by
      intro m
      rcases Nat.lt_or_ge m 13 with h | h
      · interval_cases m <;> decide
      · have e1 : daysBefore m = 365 := by
          unfold daysBefore
          split <;> omega
        have e2 : daysBefore (m - 1) = 365 := by
          unfold daysBefore
          split <;> omega
        omega
    exact h month

/-- The date of a day count is a valid date with that day count. -/
theorem dateToDays_absDate (d : Int) :
    dateToDays (absDate d).1 (absDate d).2.1 (absDate d).2.2 = d ∧
      (1 ≤ (absDate d).2.1 ∧ (absDate d).2.1 ≤ 12) ∧
      (1 ≤ (absDate d).2.2 ∧ (absDate d).2.2 ≤ daysIn (absDate d).2.1 (absDate d).1) := by
  obtain ⟨hsum, h0, h365, hleap⟩ := yearDay_spec d
  have hlt : (yearDay d).2.toNat < 366 := by omega
  have hl : (yearDay d).2.toNat = 365 → isLeap (yearDay d).1 = true := fun h =>
    hleap (by omega)
  obtain ⟨m1, m12, d1, dle, hyd⟩ :=
    monthDay_inverse_table (isLeap (yearDay d).1) (yearDay d).2.toNat hlt hl
  unfold absDate
  refine ⟨?_, ⟨m1, m12⟩, ⟨d1, dle⟩⟩
  show dateToDays (yearDay d).1 _ _ = d
  unfold dateToDays
  have hyd2 : ((daysBefore ((monthDay (isLeap (yearDay d).1) (yearDay d).2.toNat).1 - 1) +
      (if isLeap (yearDay d).1 &&
          decide (3 ≤ (monthDay (isLeap (yearDay d).1) (yearDay d).2.toNat).1) then 1 else 0) +
      ((monthDay (isLeap (yearDay d).1) (yearDay d).2.toNat).2 - 1) : Nat) : Int)
      = (yearDay d).2 := by
    rw [hyd]
    omega
  revert hyd2
  split <;> push_cast <;> intro hyd2 <;> omega

/-! ## Digits -/

theorem digit_table : ∀ d < 10, isDigit (digitChar d) = true ∧ digitVal (digitChar d) = d := by
  decide

theorem isDigit_digitChar (d : Nat) (h : d < 10) : isDigit (digitChar d) = true :=
  (digit_table d h).1

theorem digitVal_digitChar (d : Nat) (h : d < 10) : digitVal (digitChar d) = d :=
  (digit_table d h).2

theorem zeroPad_length (w n : Nat) : (zeroPad w n).length = w := by
  induction w generalizing n with
  | zero => rfl
  | succ w ih => simp [zeroPad, ih]

theorem zeroPad_all_digits (w n : Nat) : (zeroPad w n).all isDigit = true := by
  induction w generalizing n with
  | zero => rfl
  | succ w ih =>
    simp only [zeroPad, List.all_append, ih, Bool.true_and, List.all_cons, List.all_nil,
      Bool.and_true]
    exact isDigit_digitChar _ (Nat.mod_lt _ (by decide))

theorem digitsVal_append_singleton (s : GoString) (c : Char) :
    digitsVal (s ++ [c]) = digitsVal s * 10 + digitVal c := by
  simp [digitsVal, List.foldl_append]

theorem digitsVal_zeroPad (w n : Nat) : digitsVal (zeroPad w n) = n % 10 ^ w := by
  induction w generalizing n with
  | zero => simp [zeroPad, digitsVal, Nat.mod_one]
  | succ w ih =>
    rw [zeroPad, digitsVal_append_singleton, ih, digitVal_digitChar _ (Nat.mod_lt _ (by decide))]
    rw [pow_succ, Nat.mul_comm (10 ^ w) 10, Nat.mod_mul, Nat.mul_comm 10, Nat.add_comm]

theorem digitsVal_append_zeros (s : GoString) (k : Nat) :
    digitsVal (s ++ List.replicate k '0') = digitsVal s * 10 ^ k := by
  induction k with
  | zero => simp
  | succ k ih =>
    rw [List.replicate_succ', ← List.append_assoc, digitsVal_append_singleton, ih, pow_succ]
    have h0 : digitVal '0' = 0 := by decide
    rw [h0, Nat.add_zero, Nat.mul_assoc]

theorem numDigitsAux_le (f u w : Nat) (hw : 1 ≤ w) (hu : u < 10 ^ w) : numDigitsAux f u ≤ w := by
  induction f generalizing u w with
  | zero => exact hw
  | succ f ih =>
    unfold numDigitsAux
    split
    · exact hw
    · rename_i h10
      have hw2 : 2 ≤ w := by
        rcases Nat.lt_or_ge w 2 with h | h
        · have : w = 1 := by omega
          subst this
          simp at hu
          omega
        · exact h
      have hdiv : u / 10 < 10 ^ (w - 1) := by
        apply Nat.div_lt_of_lt_mul
        rw [← pow_succ']
        have : w - 1 + 1 = w := by omega
        rw [this]
        exact hu
      have := ih (u / 10) (w - 1) (by omega) hdiv
      omega

/-- A number of at most `width` digits is written with exactly `width` digits. -/
theorem appendInt_natCast (n width : Nat) (hw : 1 ≤ width) (hn : n < 10 ^ width) :
    appendInt (n : Int) width = zeroPad width n := by
  unfold appendInt
  have h0 : ¬ ((n : Int) < 0) := by omega
  rw [if_neg h0, Int.natAbs_ofNat, List.nil_append,
    Nat.max_eq_left (numDigitsAux_le n n width hw hn)]

theorem zeroPad_two (n : Nat) : zeroPad 2 n = [digitChar (n / 10 % 10), digitChar (n % 10)] := by
  simp [zeroPad]

theorem zeroPad_four (n : Nat) :
    zeroPad 4 n = [digitChar (n / 10 / 10 / 10 % 10), digitChar (n / 10 / 10 % 10),
      digitChar (n / 10 % 10), digitChar (n % 10)] := by
  simp [zeroPad]

theorem parseUint_zeroPad (w n lo hi : Nat) (hn : n < 10 ^ w) (hlo : lo ≤ n) (hhi : n ≤ hi) :
    parseUint (zeroPad w n) lo hi = some n := by
  unfold parseUint
  rw [zeroPad_all_digits, digitsVal_zeroPad, Nat.mod_eq_of_lt hn]
  simp [hlo, hhi]

/-! ## The fraction -/

theorem trimZeros_append_zeros (s : GoString) :
    ∃ k, s = trimZeros s ++ List.replicate k '0' := by
  refine ⟨(s.reverse.takeWhile (fun c => c == '0')).length, ?_⟩
  have h1 : s.reverse.takeWhile (fun c => c == '0') =
      List.replicate (s.reverse.takeWhile (fun c => c == '0')).length '0' := by
    rw [List.eq_replicate_iff]
    refine ⟨rfl, ?_⟩
    intro b hb
    have := List.mem_takeWhile_imp hb
    simpa using this
  have h2 : s.reverse = s.reverse.takeWhile (fun c => c == '0') ++
      s.reverse.dropWhile (fun c => c == '0') := (List.takeWhile_append_dropWhile _ _).symm
  have h3 := congrArg List.reverse h2
  rw [List.reverse_reverse, List.reverse_append] at h3
  unfold trimZeros
  rw [h1, List.reverse_replicate] at h3
  exact h3

theorem trimZeros_all_digits (s : GoString) (h : s.all isDigit = true) :
    (trimZeros s).all isDigit = true := by
  obtain ⟨k, hk⟩ := trimZeros_append_zeros s
  rw [hk, List.all_append, Bool.and_eq_true] at h
  exact h.1

theorem takeWhile_digits_append (ds zone : GoString) (c : Char) (hds : ds.all isDigit = true)
    (hc : isDigit c = false) :
    (ds ++ c :: zone).takeWhile isDigit = ds ∧ (ds ++ c :: zone).dropWhile isDigit = c :: zone := by
  induction ds with
  | nil => simp [List.takeWhile, List.dropWhile, hc]
  | cons a ds ih =>
    simp only [List.all_cons, Bool.and_eq_true] at hds
    simp [List.takeWhile, List.dropWhile, hds.1, ih hds.2]

/-- The fraction written by `appendNano` is read back by `parseFraction`. -/
theorem parseFraction_appendNano (sep : Char → Bool) (nsec : Nat) (c : Char) (zone : GoString)
    (hn : nsec < 10 ^ 9) (hdot : sep '.' = true) (hsc : sep c = false)
    (hc : isDigit c = false) :
    parseFraction sep (appendNano nsec ++ c :: zone) = (nsec, c :: zone) := by
  unfold appendNano
  split
  · rename_i h0
    subst h0
    cases zone with
    | nil => rfl
    | cons z zs => simp [parseFraction, hsc]
  · rename_i h0
    obtain ⟨k, hk⟩ := trimZeros_append_zeros (zeroPad 9 nsec)
    have hall := trimZeros_all_digits _ (zeroPad_all_digits 9 nsec)
    have hlen : (trimZeros (zeroPad 9 nsec)).length + k = 9 := by
      have := congrArg List.length hk
      rw [List.length_append, List.length_replicate, zeroPad_length] at this
      omega
    have hval : digitsVal (trimZeros (zeroPad 9 nsec)) * 10 ^ k = nsec := by
      rw [← digitsVal_append_zeros, ← hk, digitsVal_zeroPad, Nat.mod_eq_of_lt hn]
    cases hds : trimZeros (zeroPad 9 nsec) with
    | nil =>
      rw [hds] at hval
      simp [digitsVal] at hval
      exact absurd hval.symm h0
    | cons e ds =>
      rw [hds] at hall hlen hval
      have he : isDigit e = true := by
        simp only [List.all_cons, Bool.and_eq_true] at hall
        exact hall.1
      obtain ⟨htw, hdw⟩ := takeWhile_digits_append (e :: ds) zone c hall hc
      have hk9 : 9 - (e :: ds).length = k := by omega
      have htake : (e :: ds).take 9 = e :: ds := List.take_of_length_le (by omega)
      show parseFraction sep ('.' :: (e :: (ds ++ c :: zone))) = _
      unfold parseFraction
      simp only [hdot, he, Bool.and_self, if_true]
      have e1 : e :: (ds ++ c :: zone) = (e :: ds) ++ c :: zone := rfl
      rw [e1, htw, hdw]
      unfold parseNanoseconds
      rw [htake, hk9, hval]

/-! ## The zone and the whole layout -/

theorem appendZone_utc : appendZone 0 = ['Z'] := rfl

theorem appendZone_offset (hr mm : Nat) (hhr : hr ≤ 23) (hmm : mm ≤ 59) (neg : Bool)
    (hnz : hr * 60 + mm ≠ 0) :
    appendZone (if neg = true then -((((hr : Int) * 60 + mm) * 60)) else ((hr : Int) * 60 + mm) * 60)
      = (if neg = true then '-' else '+') :: (zeroPad 2 hr ++ ':' :: zeroPad 2 mm) := by
  have hX : (0 : Int) < (hr : Int) * 60 + mm := by omega
  have hdiv : (((hr : Int) * 60 + mm) * 60).tdiv 60 = (hr : Int) * 60 + mm := by
    rw [Int.tdiv_eq_ediv (by omega) (by omega)]
    omega
  have hq : ((hr : Int) * 60 + mm).tdiv 60 = (hr : Int) := by
    rw [Int.tdiv_eq_ediv (by omega) (by omega)]
    omega
  have hr2 : ((hr : Int) * 60 + mm).tmod 60 = (mm : Int) := by
    rw [Int.tmod_eq_emod (by omega) (by omega)]
    omega
  have a1 := appendInt_natCast hr 2 (by omega) (by omega)
  have a2 := appendInt_natCast mm 2 (by omega) (by omega)
  cases neg with
  | true =>
    simp only [if_true]
    unfold appendZone
    have hne : ¬ (-((((hr : Int) * 60 + mm) * 60)) = 0) := by omega
    rw [if_neg hne]
    simp only [Int.neg_tdiv, hdiv]
    have hlt : -((hr : Int) * 60 + mm) < 0 := by omega
    simp only [hlt, if_true, Int.neg_neg, hq, hr2, a1, a2]
    rfl
  | false =>
    simp only [Bool.false_eq_true, if_false]
    unfold appendZone
    have hne : ¬ ((((hr : Int) * 60 + mm) * 60) = 0) := by omega
    rw [if_neg hne]
    simp only [hdiv]
    have hlt : ¬ ((hr : Int) * 60 + mm < 0) := by omega
    simp only [hlt, if_false, hq, hr2, a1, a2]
    rfl

theorem parseRFC3339_utc (year month day hour min sec nsec : Nat) (rest : GoString)
    (hy : year ≤ 9999) (hm : 1 ≤ month ∧ month ≤ 12)
    (hd : 1 ≤ day ∧ day ≤ daysIn month year) (hh : hour ≤ 23) (hmi : min ≤ 59) (hs : sec ≤ 59)
    (hf : parseFraction (fun c => c == '.') rest = (nsec, ['Z'])) :
    parseRFC3339 (zeroPad 4 year ++ '-' :: (zeroPad 2 month ++ '-' :: (zeroPad 2 day ++ 'T' ::
      (zeroPad 2 hour ++ ':' :: (zeroPad 2 min ++ ':' :: (zeroPad 2 sec ++ rest))))))
      = some (Date year month day hour min sec nsec) := by
  have hd31 := daysIn_le month year
  have p1 := parseUint_zeroPad 4 year 0 9999 (by omega) (by omega) hy
  have p2 := parseUint_zeroPad 2 month 1 12 (by omega) hm.1 hm.2
  have p3 := parseUint_zeroPad 2 day 1 (daysIn month year) (by omega) hd.1 hd.2
  have p4 := parseUint_zeroPad 2 hour 0 23 (by omega) (by omega) hh
  have p5 := parseUint_zeroPad 2 min 0 59 (by omega) (by omega) hmi
  have p6 := parseUint_zeroPad 2 sec 0 59 (by omega) (by omega) hs
  simp only [zeroPad_four, zeroPad_two] at *
  simp only [List.cons_append, List.nil_append]
  unfold parseRFC3339
  simp only [Option.some_bind, p1, p2, p3, p4, p5, p6, hf]
  rfl

theorem parseRFC3339_offset (year month day hour min sec nsec hr mm : Nat) (neg : Bool)
    (rest : GoString)
    (hy : year ≤ 9999) (hm : 1 ≤ month ∧ month ≤ 12)
    (hd : 1 ≤ day ∧ day ≤ daysIn month year) (hh : hour ≤ 23) (hmi : min ≤ 59) (hs : sec ≤ 59)
    (hhr : hr ≤ 23) (hmm : mm ≤ 59)
    (hf : parseFraction (fun c => c == '.') rest =
      (nsec, (if neg = true then '-' else '+') :: (zeroPad 2 hr ++ ':' :: zeroPad 2 mm))) :
    parseRFC3339 (zeroPad 4 year ++ '-' :: (zeroPad 2 month ++ '-' :: (zeroPad 2 day ++ 'T' ::
      (zeroPad 2 hour ++ ':' :: (zeroPad 2 min ++ ':' :: (zeroPad 2 sec ++ rest))))))
      = some ((Date year month day hour min sec nsec).inZone
          (if neg = true then -((((hr : Int) * 60 + mm) * 60)) else ((hr : Int) * 60 + mm) * 60)) := by
  have hd31 := daysIn_le month year
  have p1 := parseUint_zeroPad 4 year 0 9999 (by omega) (by omega) hy
  have p2 := parseUint_zeroPad 2 month 1 12 (by omega) hm.1 hm.2
  have p3 := parseUint_zeroPad 2 day 1 (daysIn month year) (by omega) hd.1 hd.2
  have p4 := parseUint_zeroPad 2 hour 0 23 (by omega) (by omega) hh
  have p5 := parseUint_zeroPad 2 min 0 59 (by omega) (by omega) hmi
  have p6 := parseUint_zeroPad 2 sec 0 59 (by omega) (by omega) hs
  have p7 := parseUint_zeroPad 2 hr 0 23 (by omega) (by omega) hhr
  have p8 := parseUint_zeroPad 2 mm 0 59 (by omega) (by omega) hmm
  simp only [zeroPad_four, zeroPad_two] at *
  simp only [List.cons_append, List.nil_append] at hf ⊢
  unfold parseRFC3339
  simp only [Option.some_bind, p1, p2, p3, p4, p5, p6, hf]
  cases neg <;> simp [p7, p8]

/-- The text `Format` writes for a time whose date and time-of-day fields are
known and fit their widths. -/
theorem format_layout (sec offset : Int) (nsec year month day hour min s : Nat)
    (hdate : absDate ((sec + offset) / 86400 + unixEpochDays) = ((year : Int), month, day))
    (hy : year ≤ 9999) (hm : month ≤ 12) (hd : day ≤ 31)
    (hh : (sec + offset) % 86400 / 3600 = (hour : Int)) (hh2 : hour ≤ 23)
    (hmi : (sec + offset) % 86400 % 3600 / 60 = (min : Int)) (hmi2 : min ≤ 59)
    (hs : (sec + offset) % 86400 % 60 = (s : Int)) :
    Time.Format { sec := sec, nsec := nsec, offset := offset } =
      zeroPad 4 year ++ '-' :: (zeroPad 2 month ++ '-' :: (zeroPad 2 day ++ 'T' ::
        (zeroPad 2 hour ++ ':' :: (zeroPad 2 min ++ ':' :: (zeroPad 2 s ++
          (appendNano nsec ++ appendZone offset)))))) := by
  unfold Time.Format
  simp only [hdate, hh, hmi, hs]
  rw [appendInt_natCast year 4 (by omega) (by omega),
    appendInt_natCast month 2 (by omega) (by omega),
    appendInt_natCast day 2 (by omega) (by omega),
    appendInt_natCast hour 2 (by omega) (by omega),
    appendInt_natCast min 2 (by omega) (by omega),
    appendInt_natCast s 2 (by omega) (by omega)]
  simp only [List.append_assoc, List.cons_append]

/-- A time whose year lies in `0..9999`, whose nanoseconds are below `10^9` and
whose offset is a whole number of minutes below 24 hours is read back by
`parseRFC3339` from its `RFC3339Nano` text. -/
theorem parseRFC3339_format (t : Time) (hn : t.nsec < 10 ^ 9)
    (hy : 0 ≤ t.Year ∧ t.Year ≤ 9999) (hr mm : Nat) (neg : Bool) (hhr : hr ≤ 23) (hmm : mm ≤ 59)
    (hoff : t.offset =
      if neg = true then -((((hr : Int) * 60 + mm) * 60)) else ((hr : Int) * 60 + mm) * 60) :
    parseRFC3339 t.Format = some t := by
  obtain ⟨sec, nsec, offset⟩ := t
  simp only [Time.Year] at hy
  simp only at hn hoff
  obtain ⟨hdd, hm, hd⟩ := dateToDays_absDate ((sec + offset) / 86400 + unixEpochDays)
  obtain ⟨year, hyear⟩ : ∃ year : Nat, (absDate ((sec + offset) / 86400 + unixEpochDays)).1
      = (year : Int) := ⟨_, (Int.toNat_of_nonneg hy.1).symm⟩
  generalize hmonth : (absDate ((sec + offset) / 86400 + unixEpochDays)).2.1 = month at *
  generalize hday : (absDate ((sec + offset) / 86400 + unixEpochDays)).2.2 = day at *
  rw [hyear] at hdd hd hy
  have hd31 := daysIn_le month (year : Int)
  have hdate : absDate ((sec + offset) / 86400 + unixEpochDays) = ((year : Int), month, day) := by
    rw [← hyear, ← hmonth, ← hday]
  obtain ⟨hour, hh⟩ : ∃ hour : Nat, (sec + offset) % 86400 / 3600 = (hour : Int) :=
    ⟨_, (Int.toNat_of_nonneg (by omega)).symm⟩
  obtain ⟨min, hmi⟩ : ∃ min : Nat, (sec + offset) % 86400 % 3600 / 60 = (min : Int) :=
    ⟨_, (Int.toNat_of_nonneg (by omega)).symm⟩
  obtain ⟨s, hs⟩ : ∃ s : Nat, (sec + offset) % 86400 % 60 = (s : Int) :=
    ⟨_, (Int.toNat_of_nonneg (by omega)).symm⟩
  have hh2 : hour ≤ 23 := by omega
  have hmi2 : min ≤ 59 := by omega
  have hs2 : s ≤ 59 := by omega
  have hy2 : year ≤ 9999 := by omega
  rw [format_layout sec offset nsec year month day hour min s hdate hy2 hm.2 (by omega)
    hh hh2 hmi hmi2 hs]
  have hsec : (dateToDays (year : Int) month day - unixEpochDays) * 86400 + (hour : Int) * 3600
      + (min : Int) * 60 + (s : Int) = sec + offset := by
    rw [hdd]
    omega
  by_cases hz : hr * 60 + mm = 0
  · have hoff0 : offset = 0 := by
      rw [hoff]
      have h1 : hr = 0 := by omega
      have h2 : mm = 0 := by omega
      subst h1 h2
      cases neg <;> rfl
    subst hoff0
    have hf := parseFraction_appendNano (fun c => c == '.') nsec 'Z' [] hn rfl rfl rfl
    rw [appendZone_utc, parseRFC3339_utc year month day hour min s nsec _ hy2 hm hd hh2 hmi2 hs2 hf]
    simp only [Date, hsec, Int.add_zero]
  · have hf := parseFraction_appendNano (fun c => c == '.') nsec
      (if neg = true then '-' else '+') (zeroPad 2 hr ++ ':' :: zeroPad 2 mm) hn rfl
      (by cases neg <;> rfl) (by cases neg <;> rfl)
    rw [hoff, appendZone_offset hr mm hhr hmm neg hz,
      parseRFC3339_offset year month day hour min s nsec hr mm neg _ hy2 hm hd hh2 hmi2 hs2
        hhr hmm hf]
    simp only [Date, Time.inZone, hsec]
    rw [← hoff]
    simp

/-! ## What `parseRFC3339` returns -/

theorem digitVal_le_of_isDigit (c : Char) (h : isDigit c = true) : digitVal c ≤ 9 := by
  simp only [isDigit, Bool.and_eq_true, decide_eq_true_eq] at h
  have h2 : c.val.toNat ≤ ('9' : Char).val.toNat := h.2
  have h3 : ('9' : Char).val.toNat = 57 := by decide
  unfold digitVal Char.toNat
  omega

theorem digitsVal_lt (l : GoString) (h : l.all isDigit = true) :
    digitsVal l < 10 ^ l.length := by
  induction l using List.reverseRecOn with
  | nil => simp [digitsVal]
  | append_singleton l c ih =>
    rw [List.all_append, Bool.and_eq_true] at h
    have hc : isDigit c = true := by simpa using h.2
    have := digitVal_le_of_isDigit c hc
    have := ih h.1
    rw [digitsVal_append_singleton, List.length_append, List.length_singleton, pow_succ]
    omega

theorem parseNanoseconds_lt (ds : GoString) (h : ds.all isDigit = true) :
    parseNanoseconds ds < 10 ^ 9 := by
  unfold parseNanoseconds
  have hall : (ds.take 9).all isDigit = true := by
    rw [List.all_eq_true] at h ⊢
    intro x hx
    exact h x (List.mem_of_mem_take hx)
  have hlen : (ds.take 9).length ≤ 9 := by
    rw [List.length_take]
    omega
  have hlt := digitsVal_lt _ hall
  calc digitsVal (ds.take 9) * 10 ^ (9 - (ds.take 9).length)
      < 10 ^ (ds.take 9).length * 10 ^ (9 - (ds.take 9).length) :=
        Nat.mul_lt_mul_of_pos_right hlt (Nat.pow_pos (by decide))
    _ = 10 ^ 9 := by
        rw [← pow_add]
        congr 1
        omega

theorem parseFraction_lt (sep : Char → Bool) (s : GoString) :
    (parseFraction sep s).1 < 10 ^ 9 := by
  unfold parseFraction
  split
  · split
    · apply parseNanoseconds_lt
      rw [List.all_eq_true]
      intro x hx
      exact List.mem_takeWhile_imp hx
    · exact Nat.pow_pos (by decide)
  · exact Nat.pow_pos (by decide)

theorem parseUint_bounds (s : GoString) (lo hi n : Nat) (h : parseUint s lo hi = some n) :
    lo ≤ n ∧ n ≤ hi := by
  unfold parseUint at h
  split at h
  · split at h
    · rename_i hb
      cases h
      exact hb
    · cases h
  · cases h

/-- The shape of every time `parseRFC3339` returns: valid date and time-of-day
fields, read in a zone a whole number of minutes, less than 24 hours, from
UTC. -/
theorem parseRFC3339_inv (s : GoString) (t : Time) (h : parseRFC3339 s = some t) :
    ∃ (year month day hour min sec nsec hr mm : Nat) (neg : Bool),
      year ≤ 9999 ∧ (1 ≤ month ∧ month ≤ 12) ∧ (1 ≤ day ∧ day ≤ daysIn month year) ∧
      hour ≤ 23 ∧ min ≤ 59 ∧ sec ≤ 59 ∧ nsec < 10 ^ 9 ∧ hr ≤ 23 ∧ mm ≤ 59 ∧
      t = (Date year month day hour min sec nsec).inZone
        (if neg = true then -((((hr : Int) * 60 + mm) * 60)) else ((hr : Int) * 60 + mm) * 60) := by
  unfold parseRFC3339 at h
  split at h
  · rename_i y1 y2 y3 y4 c4 m1 m2 c7 d1 d2 c10 h1 h2 c13 n1 n2 c16 s1 s2 rest
    simp only [Option.bind_eq_some] at h
    obtain ⟨year, hy, month, hm, day, hd, hour, hh, min, hmi, sec, hs, h⟩ := h
    have by1 := parseUint_bounds _ _ _ _ hy
    have bm := parseUint_bounds _ _ _ _ hm
    have bd := parseUint_bounds _ _ _ _ hd
    have bh := parseUint_bounds _ _ _ _ hh
    have bmi := parseUint_bounds _ _ _ _ hmi
    have bs := parseUint_bounds _ _ _ _ hs
    have bn := parseFraction_lt (fun c => c == '.') rest
    split at h
    · split at h
      · cases h
        refine ⟨year, month, day, hour, min, sec, _, 0, 0, false, by1.2, bm, bd, bh.2, bmi.2,
          bs.2, bn, by omega, by omega, ?_⟩
        simp [Time.inZone, Date]
      · rename_i sg z1 z2 c3 z4 z5 hrest
        simp only [Option.bind_eq_some] at h
        obtain ⟨hr, hhr, mm, hmm, h⟩ := h
        have bhr := parseUint_bounds _ _ _ _ hhr
        have bmm := parseUint_bounds _ _ _ _ hmm
        split at h
        · cases h
          exact ⟨year, month, day, hour, min, sec, _, hr, mm, sg == '-', by1.2, bm, bd, bh.2,
            bmi.2, bs.2, bn, bhr.2, bmm.2, rfl⟩
        · cases h
      · cases h
    · cases h
  · cases h

/-! ## The envelope `parseCloudEvent` builds -/

theorem trimSpace_eq_nil_of_isEmpty (s : GoString) (h : (TrimSpace s).isEmpty = true) :
    TrimSpace s = [] := by
  simpa using h

theorem parseCloudEvent_ID (w : World) (ce : CE) :
    (parseCloudEvent w ce).ID = TrimSpace ce.Id := by
  unfold parseCloudEvent Event.SetData Event.SetDataContentType Event.SetTime Event.SetType
    Event.SetSpecVersion Event.SetSource Event.SetID
  by_cases h : (TrimSpace ce.Id).isEmpty = true
  · simp only [h, if_true, trimSpace_eq_nil_of_isEmpty _ h]
    repeat' split
    all_goals rfl
  · simp only [h, Bool.false_eq_true, if_false]
    repeat' split
    all_goals rfl

theorem parseCloudEvent_EventType (w : World) (ce : CE) :
    (parseCloudEvent w ce).EventType = TrimSpace ce.Ctype := by
  unfold parseCloudEvent Event.SetData Event.SetDataContentType Event.SetTime Event.SetType
    Event.SetSpecVersion Event.SetSource Event.SetID
  repeat' split
  all_goals rfl

theorem parseCloudEvent_Source_ok (w : World) (ce : CE) (h : w.urlParse ce.Source = none) :
    (parseCloudEvent w ce).Source = w.urlString ce.Source := by
  unfold parseCloudEvent Event.SetData Event.SetDataContentType Event.SetTime Event.SetType
    Event.SetSpecVersion Event.SetSource Event.SetID
  simp only [h]
  repeat' split
  all_goals rfl

theorem parseCloudEvent_Source_refused (w : World) (ce : CE) (e : Error)
    (h : w.urlParse ce.Source = some e) :
    (parseCloudEvent w ce).Source = [] := by
  unfold parseCloudEvent Event.SetData Event.SetDataContentType Event.SetTime Event.SetType
    Event.SetSpecVersion Event.SetSource Event.SetID
  simp only [h]
  repeat' split
  all_goals rfl

theorem parseCloudEvent_Context (w : World) (ce : CE) :
    (parseCloudEvent w ce).Context =
      if ce.Specversion = "0.3".toList then ContextVersion.V03 else ContextVersion.V1 := by
  unfold parseCloudEvent Event.SetData Event.SetDataContentType Event.SetTime Event.SetType
    Event.SetSpecVersion Event.SetSource Event.SetID
  by_cases h : ce.Specversion = "0.3".toList
  · simp only [h, if_true]
    repeat' split
    all_goals rfl
  · simp only [h, if_false]
    by_cases h1 : ce.Specversion = "1.0".toList
    · simp only [h1, if_true]
      repeat' split
      all_goals rfl
    · simp only [h1, if_false]
      repeat' split
      all_goals rfl

theorem parseCloudEvent_SpecVersion (w : World) (ce : CE) :
    (parseCloudEvent w ce).SpecVersion =
      if ce.Specversion = "0.3".toList then "0.3".toList else "1.0".toList := by
  unfold Event.SpecVersion
  rw [parseCloudEvent_Context]
  by_cases h : ce.Specversion = "0.3".toList
  · simp only [h, if_true]
  · simp only [h, if_false]

theorem parseCloudEvent_Time (w : World) (ce : CE) :
    (parseCloudEvent w ce).Time = if ce.Ctime.IsZero = true then none else some ce.Ctime := by
  unfold parseCloudEvent Event.SetData Event.SetDataContentType Event.SetTime Event.SetType
    Event.SetSpecVersion Event.SetSource Event.SetID
  repeat' split
  all_goals rfl

theorem setData_Context (e : Event) (ct : GoString) (data : Bytes) :
    (e.SetData ct data).Context = e.Context := by
  unfold Event.SetData Event.SetDataContentType Event.fieldOK
  cases h : e.Context <;> simp only [h]

theorem setData_Data (e : Event) (ct : GoString) (data : Bytes) :
    (e.SetData ct data).Data =
      if e.Context = ContextVersion.V03 then jsonEncodeBytes data else data := by
  unfold Event.Data Event.SetData
  cases h : e.Context <;> simp

theorem parseCloudEvent_Data (w : World) (ce : CE) :
    (parseCloudEvent w ce).Data =
      if ce.Specversion = "0.3".toList then jsonEncodeBytes ce.Data else ce.Data := by
  have hc := parseCloudEvent_Context w ce
  unfold parseCloudEvent at hc ⊢
  dsimp only at hc ⊢
  rw [setData_Context] at hc
  rw [setData_Data, hc]
  by_cases h : ce.Specversion = "0.3".toList
  · simp only [h, if_true]
  · simp only [h, if_false]
    rfl

theorem parseCloudEvent_DataContentType (w : World) (ce : CE) :
    (parseCloudEvent w ce).DataContentType = some "application/json".toList := by
  have h : (if (TrimSpace ApplicationJSON).isEmpty = true then none
      else some (TrimSpace ApplicationJSON)) = some "application/json".toList := by decide
  unfold parseCloudEvent Event.SetData Event.SetDataContentType
  dsimp only
  split <;> exact h

theorem parseLayout_nsec_lt (s : GoString) (t : Time) (h : parseLayout s = some t) :
    t.nsec < 10 ^ 9 := by
  rcases s with _ | ⟨y1, _ | ⟨y2, _ | ⟨y3, _ | ⟨y4, v1⟩⟩⟩⟩
  · cases h
  · cases h
  · cases h
  · cases h
  · unfold parseLayout at h
    dsimp only at h
    by_cases hc : (isDigit y1 && isDigit y2 && isDigit y3 && isDigit y4) = true
    · rw [if_pos hc, Option.bind_eq_some] at h
      obtain ⟨v2, -, h⟩ := h
      rw [Option.bind_eq_some] at h
      obtain ⟨month, -, h⟩ := h
      by_cases hm : 1 ≤ month.1 ∧ month.1 ≤ 12
      · rw [if_pos hm, Option.bind_eq_some] at h
        obtain ⟨v3, -, h⟩ := h
        rw [Option.bind_eq_some] at h
        obtain ⟨day, -, h⟩ := h
        rw [Option.bind_eq_some] at h
        obtain ⟨v4, -, h⟩ := h
        rw [Option.bind_eq_some] at h
        obtain ⟨hour, -, h⟩ := h
        by_cases hh : hour.1 < 24
        · rw [if_pos hh, Option.bind_eq_some] at h
          obtain ⟨v5, -, h⟩ := h
          rw [Option.bind_eq_some] at h
          obtain ⟨min, -, h⟩ := h
          by_cases hmi : min.1 < 60
          · rw [if_pos hmi, Option.bind_eq_some] at h
            obtain ⟨v6, -, h⟩ := h
            rw [Option.bind_eq_some] at h
            obtain ⟨sec, -, h⟩ := h
            by_cases hs : sec.1 < 60
            · rw [if_pos hs, Option.bind_eq_some] at h
              obtain ⟨zone, -, h⟩ := h
              by_cases hz : zone.2.isEmpty = true
              · rw [if_pos hz] at h
                by_cases hd : 1 ≤ day.1 ∧ day.1 ≤ daysIn month.1 (digitsVal [y1, y2, y3, y4])
                · rw [if_pos hd] at h
                  cases h
                  exact parseFraction_lt _ _
                · rw [if_neg hd] at h
                  cases h
              · rw [if_neg hz] at h
                cases h
            · rw [if_neg hs] at h
              cases h
          · rw [if_neg hmi] at h
            cases h
        · rw [if_neg hh] at h
          cases h
      · rw [if_neg hm] at h
        cases h
    · rw [if_neg hc] at h
      cases h

/-- Every time `time.Parse` returns has its nanoseconds below one second. -/
theorem timeParse_nsec_lt (s : GoString) (t : Time) (h : timeParse s = .ok t) :
    t.nsec < 10 ^ 9 := by
  unfold timeParse at h
  split at h
  · rename_i t1 h1
    cases h
    obtain ⟨_, _, _, _, _, _, _, _, _, _, _, _, _, _, _, _, hn, _, _, rfl⟩ := parseRFC3339_inv s t h1
    exact hn
  · split at h
    · rename_i t1 h1
      cases h
      exact parseLayout_nsec_lt s t h1
    · cases h

/-- The text the envelope writes for a time parses again to that time in UTC,
when the year of the time in UTC lies in `0..9999`. -/
theorem timeParse_timestampString (t : Time) (hn : t.nsec < 10 ^ 9)
    (hy : 0 ≤ t.UTC.Year ∧ t.UTC.Year ≤ 9999) :
    timeParse (TimestampString t) = .ok t.UTC := by
  unfold timeParse TimestampString
  rw [parseRFC3339_format t.UTC hn hy 0 0 false (by omega) (by omega) rfl]

theorem jsonEncodeBytes_of_prefix (b : UInt8) (rest : Bytes) (h : b = 34 ∨ b = 123 ∨ b = 91) :
    jsonEncodeBytes (b :: rest) = b :: rest := by
  unfold jsonEncodeBytes
  simp only [h, if_true]

theorem jsonEncodeBytes_ne (data : Bytes)
    (h : ∀ b rest, data = b :: rest → ¬ (b = 34 ∨ b = 123 ∨ b = 91)) :
    jsonEncodeBytes data = jsonMarshalBytes data ∧ jsonEncodeBytes data ≠ data := by
  have h1 : jsonEncodeBytes data = jsonMarshalBytes data := by
    unfold jsonEncodeBytes
    split
    · rename_i b rest
      rw [if_neg (h b rest rfl)]
    · rfl
  refine ⟨h1, ?_⟩
  rw [h1]
  intro heq
  cases data with
  | nil => cases heq
  | cons b rest =>
    unfold jsonMarshalBytes at heq
    have hb : (34 : UInt8) = b := (List.cons.inj heq).1
    exact h b rest rfl (Or.inl hb.symm)

/-! ## The claims -/

/-- C1: the value `sendCloudEvent` puts in the `direktiv-token` header of the
request it sends is the token with one trailing newline removed when the token
ends in a newline, and the token itself otherwise; it is the only value under
that header. -/
theorem token_header_trims_one_newline (w : World) (event : Event) (req : OutRequest)
    (h : Effect.httpDo req ∈ (sendCloudEvent w event).1) :
    (∀ u, w.Getenv "DIREKTIV_TOKEN".toList = u ++ ['\n'] →
      req.Header.Get "direktiv-token".toList = u) ∧
    ((∀ u, w.Getenv "DIREKTIV_TOKEN".toList ≠ u ++ ['\n']) →
      req.Header.Get "direktiv-token".toList = w.Getenv "DIREKTIV_TOKEN".toList) ∧
    req.Header.values "Direktiv-Token".toList = [req.Header.Get "direktiv-token".toList] := by
  obtain ⟨data, -, hreq, -⟩ := sendCloudEvent_request w event req h
  have hk : CanonicalMIMEHeaderKey "direktiv-token".toList = "Direktiv-Token".toList := by decide
  have hv : req.Header.values "Direktiv-Token".toList =
      [TrimSuffix (w.Getenv "DIREKTIV_TOKEN".toList) "\n".toList] := by
    rw [hreq]
    simp only [Header.values, List.lookup, beq_self_eq_true]
  have hg : req.Header.Get "direktiv-token".toList =
      TrimSuffix (w.Getenv "DIREKTIV_TOKEN".toList) "\n".toList := by
    unfold Header.Get
    rw [hk, hv]
  refine ⟨?_, ?_, ?_⟩
  · intro u hu
    rw [hg, hu]
    exact trimSuffix_append u ['\n']
  · intro hu
    rw [hg]
    exact trimSuffix_of_not_suffix _ _ hu
  · rw [hv, hg]

/-- Witness for C1, on the three tokens of the specification: `abc` followed
by two newlines keeps one, `abc` followed by one newline keeps none, and `abc`
is sent as it is. -/
theorem token_header_trims_one_newline_witness :
    (Effect.httpDo (exampleOutRequest "abc\n".toList) ∈
        (sendCloudEvent (exampleWorld "abc\n\n".toList (.error connectionRefused)) NewEvent).1 ∧
      (exampleOutRequest "abc\n".toList).Header.Get "direktiv-token".toList = "abc\n".toList) ∧
    (Effect.httpDo (exampleOutRequest "abc".toList) ∈
        (sendCloudEvent (exampleWorld "abc\n".toList (.error connectionRefused)) NewEvent).1 ∧
      (exampleOutRequest "abc".toList).Header.Get "direktiv-token".toList = "abc".toList) ∧
    (Effect.httpDo (exampleOutRequest " abc\r".toList) ∈
        (sendCloudEvent (exampleWorld " abc\r".toList (.error connectionRefused)) NewEvent).1 ∧
      (exampleOutRequest " abc\r".toList).Header.Get "direktiv-token".toList = " abc\r".toList) := by
  have h1 : Effect.httpDo (exampleOutRequest "abc\n".toList) ∈
      (sendCloudEvent (exampleWorld "abc\n\n".toList (.error connectionRefused)) NewEvent).1 := by
    decide
  have h2 : Effect.httpDo (exampleOutRequest "abc".toList) ∈
      (sendCloudEvent (exampleWorld "abc\n".toList (.error connectionRefused)) NewEvent).1 := by
    decide
  have h3 : Effect.httpDo (exampleOutRequest " abc\r".toList) ∈
      (sendCloudEvent (exampleWorld " abc\r".toList (.error connectionRefused)) NewEvent).1 := by
    decide
  refine ⟨⟨h1, ?_⟩, ⟨h2, ?_⟩, ⟨h3, ?_⟩⟩
  · exact (token_header_trims_one_newline _ _ _ h1).1 "abc\n".toList (by decide)
  · exact (token_header_trims_one_newline _ _ _ h2).1 "abc".toList (by decide)
  · exact (token_header_trims_one_newline _ _ _ h3).2.1 (by
      intro u hu
      have hu1 : " abc\r".toList = u ++ ['\n'] := hu
      have hl := congrArg List.getLast? hu1
      simp at hl)

/-- C5: when the envelope is marshalled and `http.NewRequest` succeeds,
`sendCloudEvent` makes exactly one call of `http.DefaultClient.Do`; its request
has method `POST`, the URL is base URL, `/api/namespaces/`, namespace and
`/broadcast` put together, the header `Content-Type` is
`application/cloudevents+json; charset=utf-8` and the body is the marshalled
envelope. -/
theorem post_to_broadcast_url (w : World) (event : Event) (b n : GoString) (data : Bytes)
    (req0 : OutRequest)
    (hb : w.Getenv "DIREKTIV_ENDPOINT".toList = b)
    (hns : w.Getenv "DIREKTIV_NAMESPACE".toList = n)
    (hm : w.marshalEvent event = .ok data)
    (hn : NewRequest w "POST".toList
      (b ++ "/api/namespaces/".toList ++ n ++ "/broadcast".toList) data = .ok req0) :
    ∃ req, (sendCloudEvent w event).1 = [Effect.httpDo req] ∧
      req.Method = "POST".toList ∧
      req.URL = b ++ "/api/namespaces/".toList ++ n ++ "/broadcast".toList ∧
      req.Header.Get "Content-Type".toList =
        "application/cloudevents+json; charset=utf-8".toList ∧
      req.Header.values "Content-Type".toList =
        ["application/cloudevents+json; charset=utf-8".toList] ∧
      req.Body = data := by
  subst hb hns
  have hmem : ∃ req, Effect.httpDo req ∈ (sendCloudEvent w event).1 := by
    unfold sendCloudEvent
    rw [hm]
    dsimp only [broadcastURL]
    rw [hn]
    dsimp only
    split
    · exact ⟨_, List.mem_singleton.mpr rfl⟩
    · split
      · exact ⟨_, List.mem_singleton.mpr rfl⟩
      · exact ⟨_, List.mem_singleton.mpr rfl⟩
  obtain ⟨req, hreq⟩ := hmem
  obtain ⟨data1, hm1, hr, hfx⟩ := sendCloudEvent_request w event req hreq
  rw [hm] at hm1
  cases hm1
  have hk : CanonicalMIMEHeaderKey "Content-Type".toList = "Content-Type".toList := by decide
  have hne : ("Content-Type".toList == "Direktiv-Token".toList) = false := by decide
  have hv : req.Header.values "Content-Type".toList =
      ["application/cloudevents+json; charset=utf-8".toList] := by
    rw [hr]
    simp only [Header.values, List.lookup, hne, beq_self_eq_true]
  refine ⟨req, hfx, ?_, ?_, ?_, hv, ?_⟩
  · rw [hr]
  · rw [hr]; rfl
  · unfold Header.Get
    rw [hk, hv]
  · rw [hr]

/-- Witness for C5 in the example world: one `POST` to
`http://direktiv/api/namespaces/ns/broadcast`. -/
theorem post_to_broadcast_url_witness :
    ∃ req, (sendCloudEvent (exampleWorld "abc".toList (.error connectionRefused)) NewEvent).1
        = [Effect.httpDo req] ∧
      req.Method = "POST".toList ∧
      req.URL = "http://direktiv".toList ++ "/api/namespaces/".toList ++ "ns".toList ++
        "/broadcast".toList ∧
      req.Header.Get "Content-Type".toList =
        "application/cloudevents+json; charset=utf-8".toList ∧
      req.Header.values "Content-Type".toList =
        ["application/cloudevents+json; charset=utf-8".toList] ∧
      req.Body = [2] :=
  post_to_broadcast_url (exampleWorld "abc".toList (.error connectionRefused)) NewEvent
    "http://direktiv".toList "ns".toList [2]
    { Method := "POST".toList, URL := "http://direktiv/api/namespaces/ns/broadcast".toList,
      Header := [], Body := [2] }
    (by decide) (by decide) rfl rfl

/-- C10: `sendCloudEvent` does not look at the status code.  Whenever the
downstream call returns a response whose body can be read, whatever the status
code of that response, `sendCloudEvent` returns the body bytes and no error,
and the handler logs them as the response of Direktiv. -/
theorem status_code_not_inspected (w : World) (event : Event) (req : OutRequest)
    (resp : Response)
    (hreq : Effect.httpDo req ∈ (sendCloudEvent w event).1)
    (hd : w.Do req = .ok resp) (hb : resp.Body.err = none) :
    (sendCloudEvent w event).2 = .ok resp.Body.data ∧
    ∀ r ce d, readCloudEvent r = .ok ce → parseCloudEvent w ce = event →
      w.marshalCE ce = .ok d →
      DirektivListener w r =
        [.logPrintf receivedFormat d, .httpDo req, .logPrintf responseFormat resp.Body.data] := by
  have hres : (sendCloudEvent w event).2 = .ok resp.Body.data := by
    rcases sendCloudEvent_cases w event with ⟨hnil, -⟩ | ⟨req1, hfx, hc⟩
    · rw [hnil] at hreq; exact absurd hreq (List.not_mem_nil _)
    · rw [hfx, List.mem_singleton] at hreq
      have hrq : req = req1 := Effect.httpDo.inj hreq
      subst hrq
      rcases hc with ⟨e, he, -⟩ | ⟨resp1, e, hd1, he, -⟩ | ⟨resp1, hd1, -, hr⟩
      · rw [hd] at he; cases he
      · rw [hd] at hd1; cases hd1; rw [hb] at he; cases he
      · rw [hd] at hd1; cases hd1; exact hr
  refine ⟨hres, ?_⟩
  intro r ce d hr hev hm
  subst hev
  have hfx : (sendCloudEvent w (parseCloudEvent w ce)).1 = [Effect.httpDo req] :=
    (sendCloudEvent_request w _ req hreq).choose_spec.2.2
  rcases listener_cases w r with ⟨e, he, -⟩ | ⟨ce1, e, hr1, hm1, -⟩ |
      ⟨ce1, d1, e, hr1, hm1, hs1, -⟩ | ⟨ce1, d1, data, hr1, hm1, hs1, ht⟩
  · rw [hr] at he; cases he
  · rw [hr] at hr1; cases hr1; rw [hm] at hm1; cases hm1
  · rw [hr] at hr1; cases hr1; rw [hres] at hs1; cases hs1
  · rw [hr] at hr1; cases hr1
    rw [hm] at hm1; cases hm1
    rw [hres] at hs1; cases hs1
    rw [ht, hfx]
    rfl

/-- Witness for C10: a downstream answer with status 500 and a readable body is
returned as the result and logged as the response. -/
theorem status_code_not_inspected_witness :
    (sendCloudEvent (exampleWorld "abc".toList
        (.ok { StatusCode := 500, Body := readerOf [7, 7] })) NewEvent).2 = .ok [7, 7] :=
  (status_code_not_inspected
    (exampleWorld "abc".toList (.ok { StatusCode := 500, Body := readerOf [7, 7] })) NewEvent
    (exampleOutRequest "abc".toList) { StatusCode := 500, Body := readerOf [7, 7] }
    (by decide) rfl rfl).1

/-- C8: in `DirektivListener`, when extraction succeeds and the outbound call
fails with a transport error, the trace is the `Cloud event received` log
line, then the outbound call, then the fatal log of the error: the received
line comes before the call and no `Response of Direktiv` line is logged.  And
in every run, a `Response of Direktiv` line is the last effect, it comes after
the effects of `sendCloudEvent`, and `sendCloudEvent` returned its argument
without error. -/
theorem response_logged_only_after_success (w : World) (r : Request) :
    (∀ req e, (∃ ce, readCloudEvent r = .ok ce) →
      Effect.httpDo req ∈ DirektivListener w r → w.Do req = .error e →
      (∃ d, DirektivListener w r =
        [.logPrintf receivedFormat d, .httpDo req, .logPrint e, .osExit 1]) ∧
      ∀ d, Effect.logPrintf responseFormat d ∉ DirektivListener w r) ∧
    (∀ d, Effect.logPrintf responseFormat d ∈ DirektivListener w r →
      ∃ ce d0, readCloudEvent r = .ok ce ∧
        (sendCloudEvent w (parseCloudEvent w ce)).2 = .ok d ∧
        DirektivListener w r = .logPrintf receivedFormat d0 ::
          ((sendCloudEvent w (parseCloudEvent w ce)).1 ++ [.logPrintf responseFormat d])) := by
  have hfmt : receivedFormat ≠ responseFormat := by decide
  constructor
  · intro req e _ hmem he
    rcases listener_cases w r with ⟨e1, -, ht⟩ | ⟨ce1, e1, -, -, ht⟩ |
        ⟨ce1, d1, e1, hr1, hm1, hs1, ht⟩ | ⟨ce1, d1, data, hr1, hm1, hs1, ht⟩
    · rw [ht] at hmem; simp at hmem
    · rw [ht] at hmem; simp at hmem
    · rcases sendCloudEvent_cases w (parseCloudEvent w ce1) with ⟨hnil, -⟩ | ⟨req1, hfx, hc⟩
      · rw [ht, hnil] at hmem; simp at hmem
      · rw [hfx] at ht
        rw [ht] at hmem
        have hrq : req = req1 := by simpa using hmem
        subst hrq
        have hee : e1 = e := by
          rcases hc with ⟨e2, he2, hr2⟩ | ⟨resp, e2, hd2, -⟩ | ⟨resp, hd2, -⟩
          · rw [he] at he2; cases he2
            rw [hs1] at hr2; cases hr2; rfl
          · rw [he] at hd2; cases hd2
          · rw [he] at hd2; cases hd2
        subst hee
        refine ⟨⟨d1, ht⟩, ?_⟩
        intro d hd
        rw [ht] at hd
        simp at hd
        exact hfmt hd.1.symm
    · rcases sendCloudEvent_cases w (parseCloudEvent w ce1) with ⟨hnil, -⟩ | ⟨req1, hfx, hc⟩
      · rw [ht, hnil] at hmem; simp at hmem
      · rw [hfx] at ht
        rw [ht] at hmem
        have hrq : req = req1 := by simpa using hmem
        subst hrq
        exfalso
        rcases hc with ⟨e2, -, hr2⟩ | ⟨resp, e2, hd2, -⟩ | ⟨resp, hd2, -⟩
        · rw [hs1] at hr2; cases hr2
        · rw [he] at hd2; cases hd2
        · rw [he] at hd2; cases hd2
  · intro d hmem
    rcases listener_cases w r with ⟨e1, -, ht⟩ | ⟨ce1, e1, -, -, ht⟩ |
        ⟨ce1, d1, e1, hr1, hm1, hs1, ht⟩ | ⟨ce1, d1, data, hr1, hm1, hs1, ht⟩
    · rw [ht] at hmem; simp at hmem
    · rw [ht] at hmem; simp at hmem
    · exfalso
      rcases sendCloudEvent_cases w (parseCloudEvent w ce1) with ⟨hnil, -⟩ | ⟨req1, hfx, -⟩
      · rw [ht, hnil] at hmem
        simp at hmem
        exact hfmt hmem.1.symm
      · rw [ht, hfx] at hmem
        simp at hmem
        exact hfmt hmem.1.symm
    · have hdd : d = data := by
        rcases sendCloudEvent_cases w (parseCloudEvent w ce1) with ⟨hnil, -⟩ | ⟨req1, hfx, -⟩
        · rw [ht, hnil] at hmem
          simp at hmem
          rcases hmem with ⟨h1, -⟩ | h2
          · exact absurd h1.symm hfmt
          · exact h2
        · rw [ht, hfx] at hmem
          simp at hmem
          rcases hmem with ⟨h1, -⟩ | h2
          · exact absurd h1.symm hfmt
          · exact h2
      subst hdd
      exact ⟨ce1, d1, hr1, hs1, ht⟩

/-- Witness for C8: a request that is extracted, in a world where the
connection to the downstream service is refused. -/
theorem response_logged_only_after_success_witness :
    (∃ ce, readCloudEvent (exampleRequest "2024-01-01T00:00:00Z".toList (readerOf exampleBody))
        = .ok ce) ∧
    DirektivListener (exampleWorld "abc".toList (.error connectionRefused))
        (exampleRequest "2024-01-01T00:00:00Z".toList (readerOf exampleBody)) =
      [.logPrintf receivedFormat [1], .httpDo (exampleOutRequest "abc".toList),
       .logPrint connectionRefused, .osExit 1] ∧
    ∀ d, Effect.logPrintf responseFormat d ∉
      DirektivListener (exampleWorld "abc".toList (.error connectionRefused))
        (exampleRequest "2024-01-01T00:00:00Z".toList (readerOf exampleBody)) := by
  have hx : ∃ ce, readCloudEvent
      (exampleRequest "2024-01-01T00:00:00Z".toList (readerOf exampleBody)) = .ok ce :=
    ⟨_, rfl⟩
  have ht : DirektivListener (exampleWorld "abc".toList (.error connectionRefused))
        (exampleRequest "2024-01-01T00:00:00Z".toList (readerOf exampleBody)) =
      [.logPrintf receivedFormat [1], .httpDo (exampleOutRequest "abc".toList),
       .logPrint connectionRefused, .osExit 1] := by decide
  have hw := (response_logged_only_after_success
    (exampleWorld "abc".toList (.error connectionRefused))
    (exampleRequest "2024-01-01T00:00:00Z".toList (readerOf exampleBody))).1
    (exampleOutRequest "abc".toList) connectionRefused hx (by rw [ht]; decide) rfl
  exact ⟨hx, ht, hw.2⟩

/-- C9: what the code does on a request whose `ce-time` does not parse, in
every world: the handler logs the parse error with `log.Fatal`, which ends the
process with exit code 1; the handler does not return to the server. -/
theorem malformed_time_ends_process (w : World) :
    DirektivListener w (exampleRequest "not-a-time".toList (readerOf exampleBody)) =
      [.logPrint (.parse { Layout := RFC3339, Value := "not-a-time".toList }), .osExit 1] := by
  rfl

/-- C7: `readCloudEvent` does not validate the headers `ce-id`, `ce-source`,
`ce-specversion` and `ce-type`.  When `ce-time` parses and the body is
readable, extraction succeeds and the record holds the value of each of the
four headers as `Header.Get` gives it, which is the empty string for a header
that is absent; and two requests with the same `ce-time` value and the same
body succeed or fail alike, with the same error. -/
theorem other_headers_not_validated :
    (∀ (r : Request) (t : Time), timeParse (r.Header.Get "ce-time".toList) = .ok t →
      r.Body.err = none →
      readCloudEvent r = .ok
        { Id := r.Header.Get "ce-id".toList
          Source := r.Header.Get "ce-source".toList
          Specversion := r.Header.Get "ce-specversion".toList
          Data := r.Body.data
          Ctype := r.Header.Get "ce-type".toList
          Ctime := t }) ∧
    (∀ (h : Header) (key : GoString), h.lookup (CanonicalMIMEHeaderKey key) = none →
      h.Get key = []) ∧
    (∀ r1 r2 : Request, r1.Header.Get "ce-time".toList = r2.Header.Get "ce-time".toList →
      r1.Body = r2.Body →
      ((∃ ce, readCloudEvent r1 = .ok ce) ↔ (∃ ce, readCloudEvent r2 = .ok ce)) ∧
      (∀ e, readCloudEvent r1 = .error e ↔ readCloudEvent r2 = .error e)) := by
  refine ⟨fun r t ht hb => readCloudEvent_of_ok r t ht hb, ?_, ?_⟩
  · intro h key hk
    simp only [Header.Get, Header.values, hk]
  · intro r1 r2 ht hbody
    cases hp : timeParse (r1.Header.Get "ce-time".toList) with
    | error e =>
      have h1 := readCloudEvent_of_parse_error r1 e hp
      have h2 := readCloudEvent_of_parse_error r2 e (ht ▸ hp)
      rw [h1, h2]
      exact ⟨Iff.rfl, fun _ => Iff.rfl⟩
    | ok t =>
      cases hb : r1.Body.err with
      | some e =>
        have h1 := readCloudEvent_of_read_error r1 t e hp hb
        have h2 := readCloudEvent_of_read_error r2 t e (ht ▸ hp) (hbody ▸ hb)
        rw [h1, h2]
        exact ⟨Iff.rfl, fun _ => Iff.rfl⟩
      | none =>
        have h1 := readCloudEvent_of_ok r1 t hp hb
        have h2 := readCloudEvent_of_ok r2 t (ht ▸ hp) (hbody ▸ hb)
        rw [h1, h2]
        refine ⟨⟨fun _ => ⟨_, rfl⟩, fun _ => ⟨_, rfl⟩⟩, fun e => ⟨fun h => ?_, fun h => ?_⟩⟩
        · cases h
        · cases h

/-- Witness for C7: a request that has only a `ce-time` header is extracted,
with four empty strings. -/
theorem other_headers_not_validated_witness :
    readCloudEvent { Header := [("Ce-Time".toList, ["2024-01-01T00:00:00Z".toList])],
                     Body := readerOf exampleBody } =
      .ok { Id := [], Source := [], Specversion := [], Data := exampleBody, Ctype := [],
            Ctime := { sec := 1704067200, nsec := 0, offset := 0 } } :=
  other_headers_not_validated.1
    { Header := [("Ce-Time".toList, ["2024-01-01T00:00:00Z".toList])],
      Body := readerOf exampleBody }
    { sec := 1704067200, nsec := 0, offset := 0 } rfl rfl

/-- Counterexample to C4 as stated: the value `2024-01-01T1:00:00Z`, whose
hour has one digit, does not have the shape of an RFC 3339 date-time, yet
`time.Parse` accepts it and `readCloudEvent` returns a record. -/
theorem one_digit_hour_is_extracted :
    rfc3339Shape "2024-01-01T1:00:00Z".toList = false ∧
    readCloudEvent (exampleRequest "2024-01-01T1:00:00Z".toList (readerOf exampleBody)) =
      .ok { Id := "evt-1".toList, Source := "src-a".toList, Specversion := "1.0".toList,
            Data := exampleBody, Ctype := "audit.log".toList,
            Ctime := { sec := 1704070800, nsec := 0, offset := 0 } } :=
  ⟨rfl, rfl⟩

/-- C4, amended: for every request whose `ce-time` value `time.Parse` rejects
under the layout `time.RFC3339`, `readCloudEvent` returns that parse error and
no record, whatever the other headers and the body are; the empty value and
`not-a-time` are rejected. -/
theorem rejected_time_fails_extraction :
    (∀ (r : Request) (e : ParseError), timeParse (r.Header.Get "ce-time".toList) = .error e →
      readCloudEvent r = .error (.parse e)) ∧
    timeParse [] = .error { Layout := RFC3339, Value := [] } ∧
    timeParse "not-a-time".toList = .error { Layout := RFC3339, Value := "not-a-time".toList } ∧
    (∀ h : Header, h.lookup "Ce-Time".toList = none →
      ∀ body, readCloudEvent { Header := h, Body := body } =
        .error (.parse { Layout := RFC3339, Value := [] })) := by
  refine ⟨readCloudEvent_of_parse_error, rfl, rfl, ?_⟩
  intro h hk body
  apply readCloudEvent_of_parse_error
  have hc : CanonicalMIMEHeaderKey "ce-time".toList = "Ce-Time".toList := by decide
  have hg : Header.Get h "ce-time".toList = [] := by
    simp only [Header.Get, Header.values, hc, hk]
  rw [show ({ Header := h, Body := body } : Request).Header = h from rfl, hg]
  rfl

/-- Witness for the amended C4: with `ce-time: not-a-time`, extraction fails
with the parse error although the other headers and the body are fine. -/
theorem rejected_time_fails_extraction_witness :
    timeParse ((exampleRequest "not-a-time".toList (readerOf exampleBody)).Header.Get
        "ce-time".toList) = .error { Layout := RFC3339, Value := "not-a-time".toList } ∧
    readCloudEvent (exampleRequest "not-a-time".toList (readerOf exampleBody)) =
      .error (.parse { Layout := RFC3339, Value := "not-a-time".toList }) :=
  ⟨rfl, rejected_time_fails_extraction.1 _ _ rfl⟩

/-- Counterexample to C2 as stated, at three requests with a well-formed
`ce-time`: with the `ce-id` value `evt 1` between two spaces the envelope has
the id without them; with the `ce-specversion` value `2.0` the envelope has
the version `1.0`; and when reading the body fails, `readCloudEvent` fails. -/
theorem envelope_fields_not_verbatim :
    (readCloudEvent (requestOf " evt 1 ".toList "src-a".toList "1.0".toList "audit.log".toList
        "2024-01-01T00:00:00Z".toList (readerOf exampleBody)) =
      .ok (recordOf " evt 1 ".toList "src-a".toList "1.0".toList "audit.log".toList
        { sec := 1704067200, nsec := 0, offset := 0 } exampleBody) ∧
     (parseCloudEvent envelopeWorld (recordOf " evt 1 ".toList "src-a".toList "1.0".toList
        "audit.log".toList { sec := 1704067200, nsec := 0, offset := 0 } exampleBody)).ID
       = "evt 1".toList ∧
     "evt 1".toList ≠ " evt 1 ".toList) ∧
    (readCloudEvent (requestOf "evt-1".toList "src-a".toList "2.0".toList "audit.log".toList
        "2024-01-01T00:00:00Z".toList (readerOf exampleBody)) =
      .ok (recordOf "evt-1".toList "src-a".toList "2.0".toList "audit.log".toList
        { sec := 1704067200, nsec := 0, offset := 0 } exampleBody) ∧
     (parseCloudEvent envelopeWorld (recordOf "evt-1".toList "src-a".toList "2.0".toList
        "audit.log".toList { sec := 1704067200, nsec := 0, offset := 0 } exampleBody)).SpecVersion
       = "1.0".toList) ∧
    readCloudEvent (requestOf "evt-1".toList "src-a".toList "1.0".toList "audit.log".toList
        "2024-01-01T00:00:00Z".toList (brokenReader exampleBody)) =
      .error (.other "unexpected EOF".toList) :=
  ⟨⟨rfl, by decide, by decide⟩, ⟨rfl, by decide⟩, rfl⟩

/-- C2, amended: for every request whose `ce-time` value parses and whose body
can be read in full, `readCloudEvent` succeeds and its record holds the values
of the headers `ce-id`, `ce-source`, `ce-specversion` and `ce-type` as they
are.  In the envelope `parseCloudEvent` builds from the record, the id and the
type are those values without surrounding white space, the spec version is the
value when it is `0.3` or `1.0` and is `1.0` otherwise, and the source is the
text of the URL read from the value, or empty when the value does not parse.
So each of the four is the header value itself when, in turn, the id and the
type have no surrounding white space, the spec version is `0.3` or `1.0`, and
the source parses to a URL whose text is the value. -/
theorem envelope_fields_from_headers (w : World) (r : Request) (t : Time)
    (ht : timeParse (r.Header.Get "ce-time".toList) = .ok t) (hb : r.Body.err = none) :
    ∃ ce, readCloudEvent r = .ok ce ∧
      (ce.Id = r.Header.Get "ce-id".toList ∧ ce.Source = r.Header.Get "ce-source".toList ∧
        ce.Specversion = r.Header.Get "ce-specversion".toList ∧
        ce.Ctype = r.Header.Get "ce-type".toList) ∧
      (parseCloudEvent w ce).ID = TrimSpace (r.Header.Get "ce-id".toList) ∧
      (parseCloudEvent w ce).EventType = TrimSpace (r.Header.Get "ce-type".toList) ∧
      (parseCloudEvent w ce).SpecVersion =
        (if r.Header.Get "ce-specversion".toList = "0.3".toList then "0.3".toList
         else "1.0".toList) ∧
      (w.urlParse (r.Header.Get "ce-source".toList) = none →
        (parseCloudEvent w ce).Source = w.urlString (r.Header.Get "ce-source".toList)) ∧
      (∀ e, w.urlParse (r.Header.Get "ce-source".toList) = some e →
        (parseCloudEvent w ce).Source = []) ∧
      (TrimSpace (r.Header.Get "ce-id".toList) = r.Header.Get "ce-id".toList →
        (parseCloudEvent w ce).ID = r.Header.Get "ce-id".toList) ∧
      (TrimSpace (r.Header.Get "ce-type".toList) = r.Header.Get "ce-type".toList →
        (parseCloudEvent w ce).EventType = r.Header.Get "ce-type".toList) ∧
      (r.Header.Get "ce-specversion".toList = "0.3".toList ∨
          r.Header.Get "ce-specversion".toList = "1.0".toList →
        (parseCloudEvent w ce).SpecVersion = r.Header.Get "ce-specversion".toList) ∧
      (w.urlParse (r.Header.Get "ce-source".toList) = none →
        w.urlString (r.Header.Get "ce-source".toList) = r.Header.Get "ce-source".toList →
        (parseCloudEvent w ce).Source = r.Header.Get "ce-source".toList) := by
  refine ⟨_, readCloudEvent_of_ok r t ht hb, ⟨rfl, rfl, rfl, rfl⟩, ?_, ?_, ?_, ?_, ?_, ?_, ?_, ?_, ?_⟩
  · exact parseCloudEvent_ID w _
  · exact parseCloudEvent_EventType w _
  · exact parseCloudEvent_SpecVersion w _
  · intro h
    exact parseCloudEvent_Source_ok w _ h
  · intro e h
    exact parseCloudEvent_Source_refused w _ e h
  · intro h
    rw [parseCloudEvent_ID]
    exact h
  · intro h
    rw [parseCloudEvent_EventType]
    exact h
  · intro h
    rw [parseCloudEvent_SpecVersion]
    show (if r.Header.Get "ce-specversion".toList = "0.3".toList then "0.3".toList
      else "1.0".toList) = r.Header.Get "ce-specversion".toList
    rcases h with h | h
    · rw [if_pos h, h]
    · rw [h]
      decide
  · intro h1 h2
    rw [parseCloudEvent_Source_ok w _ h1]
    exact h2

/-- Witness for the amended C2, on the example of the specification: the
envelope has id `evt-1`, source `src-a`, spec version `1.0`, type `audit.log`,
and its time is written as `2024-01-01T00:00:00Z`. -/
theorem envelope_fields_from_headers_witness :
    timeParse ((exampleRequest "2024-01-01T00:00:00Z".toList (readerOf exampleBody)).Header.Get
        "ce-time".toList) = .ok { sec := 1704067200, nsec := 0, offset := 0 } ∧
    (∃ ce, readCloudEvent (exampleRequest "2024-01-01T00:00:00Z".toList (readerOf exampleBody))
        = .ok ce ∧
      (parseCloudEvent envelopeWorld ce).ID = "evt-1".toList ∧
      (parseCloudEvent envelopeWorld ce).Source = "src-a".toList ∧
      (parseCloudEvent envelopeWorld ce).SpecVersion = "1.0".toList ∧
      (parseCloudEvent envelopeWorld ce).EventType = "audit.log".toList ∧
      (parseCloudEvent envelopeWorld ce).Time =
        some { sec := 1704067200, nsec := 0, offset := 0 }) ∧
    TimestampString { sec := 1704067200, nsec := 0, offset := 0 } =
      "2024-01-01T00:00:00Z".toList := by
  obtain ⟨ce, h1, -, -, -, -, -, -, h2, h3, h4, h5⟩ := envelope_fields_from_headers envelopeWorld
    (exampleRequest "2024-01-01T00:00:00Z".toList (readerOf exampleBody))
    { sec := 1704067200, nsec := 0, offset := 0 } rfl rfl
  refine ⟨rfl, ⟨ce, h1, h2 (by decide), h5 rfl rfl, h4 (Or.inr (by decide)), h3 (by decide), ?_⟩,
    by decide⟩
  have hce : readCloudEvent (exampleRequest "2024-01-01T00:00:00Z".toList (readerOf exampleBody))
      = .ok (recordOf "evt-1".toList "src-a".toList "1.0".toList "audit.log".toList
          { sec := 1704067200, nsec := 0, offset := 0 } exampleBody) := rfl
  rw [hce] at h1
  cases h1
  rw [parseCloudEvent_Time]
  rfl

/-- Counterexample to C6 as stated: with `ce-specversion: 0.3` and the body
bytes 255, 0, 1 the envelope does not carry the payload: its data are the six
bytes of the JSON string `"/wAB"`, the base64 text of the payload in quotes. -/
theorem legacy_data_is_json_encoded :
    readCloudEvent (requestOf "evt-1".toList "src-a".toList "0.3".toList "audit.log".toList
        "2024-01-01T00:00:00Z".toList (readerOf [255, 0, 1])) =
      .ok (recordOf "evt-1".toList "src-a".toList "0.3".toList "audit.log".toList
        { sec := 1704067200, nsec := 0, offset := 0 } [255, 0, 1]) ∧
    (parseCloudEvent envelopeWorld (recordOf "evt-1".toList "src-a".toList "0.3".toList
        "audit.log".toList { sec := 1704067200, nsec := 0, offset := 0 } [255, 0, 1])).Data
      = [34, 47, 119, 65, 66, 34] ∧
    ([34, 47, 119, 65, 66, 34] : Bytes) ≠ [255, 0, 1] :=
  ⟨rfl, by decide, by decide⟩

/-- C6, amended: for every record, whatever bytes its payload holds, the
envelope built by `parseCloudEvent` has the data content type
`application/json`.  Its data are exactly the payload bytes when the spec
version of the record is not `0.3`, and also when the payload starts with a
double quote, an opening brace or an opening bracket; with the spec version
`0.3` and any other payload the data are the JSON encoding of the payload (its
base64 text in quotes), which differs from the payload.  The payload of a
record read by `readCloudEvent` is the bytes of the request body. -/
theorem payload_tag_and_data (w : World) (ce : CE) :
    (parseCloudEvent w ce).DataContentType = some "application/json".toList ∧
    (ce.Specversion ≠ "0.3".toList → (parseCloudEvent w ce).Data = ce.Data) ∧
    (∀ b rest, ce.Data = b :: rest → b = 34 ∨ b = 123 ∨ b = 91 →
      (parseCloudEvent w ce).Data = ce.Data) ∧
    (ce.Specversion = "0.3".toList →
      (∀ b rest, ce.Data = b :: rest → ¬ (b = 34 ∨ b = 123 ∨ b = 91)) →
      (parseCloudEvent w ce).Data = jsonMarshalBytes ce.Data ∧
      (parseCloudEvent w ce).Data ≠ ce.Data) ∧
    (∀ r : Request, readCloudEvent r = .ok ce → ce.Data = r.Body.data) := by
  refine ⟨parseCloudEvent_DataContentType w ce, ?_, ?_, ?_, ?_⟩
  · intro h
    rw [parseCloudEvent_Data, if_neg h]
  · intro b rest hd hb
    rw [parseCloudEvent_Data]
    split
    · rw [hd]
      exact jsonEncodeBytes_of_prefix b rest hb
    · rfl
  · intro hv hd
    rw [parseCloudEvent_Data, if_pos hv]
    exact jsonEncodeBytes_ne ce.Data hd
  · intro r hr
    obtain ⟨-, -, hce⟩ := readCloudEvent_ok_inv r ce hr
    rw [hce]

/-- Witness for the amended C6: with the spec version `1.0`, a body that is not
JSON (the bytes 255, 0, 1) is carried unchanged and tagged `application/json`;
with the spec version `0.3`, a body that starts with a brace is carried
unchanged. -/
theorem payload_tag_and_data_witness :
    ("1.0".toList ≠ "0.3".toList ∧
      (parseCloudEvent envelopeWorld (recordOf "evt-1".toList "src-a".toList "1.0".toList
        "audit.log".toList { sec := 1704067200, nsec := 0, offset := 0 } [255, 0, 1])).Data
        = [255, 0, 1]) ∧
    (parseCloudEvent envelopeWorld (recordOf "evt-1".toList "src-a".toList "1.0".toList
        "audit.log".toList { sec := 1704067200, nsec := 0, offset := 0 } [255, 0, 1])).DataContentType
      = some "application/json".toList ∧
    (parseCloudEvent envelopeWorld (recordOf "evt-1".toList "src-a".toList "0.3".toList
        "audit.log".toList { sec := 1704067200, nsec := 0, offset := 0 } exampleBody)).Data
      = exampleBody ∧
    readCloudEvent (requestOf "evt-1".toList "src-a".toList "1.0".toList "audit.log".toList
        "2024-01-01T00:00:00Z".toList (readerOf [255, 0, 1])) =
      .ok (recordOf "evt-1".toList "src-a".toList "1.0".toList "audit.log".toList
        { sec := 1704067200, nsec := 0, offset := 0 } [255, 0, 1]) :=
  ⟨⟨by decide, (payload_tag_and_data envelopeWorld _).2.1 (by decide)⟩,
    (payload_tag_and_data envelopeWorld _).1,
    (payload_tag_and_data envelopeWorld (recordOf "evt-1".toList "src-a".toList "0.3".toList
        "audit.log".toList { sec := 1704067200, nsec := 0, offset := 0 } exampleBody)).2.2.1
      123 [34, 107, 34, 58, 34, 118, 34, 125] rfl (Or.inr (Or.inl rfl)),
    rfl⟩

/-- Counterexample to C3 as stated, at two well-formed values.  For
`0000-01-01T00:00:00+01:00` the envelope carries the parsed time, but the text
it writes for it, in UTC, has the year -1 and does not parse.  For
`0001-01-01T00:00:00Z`, which parses to the zero time, the envelope carries no
time at all. -/
theorem year_zero_and_zero_time_do_not_round_trip :
    (parseRFC3339 "0000-01-01T00:00:00+01:00".toList =
        some { sec := -62167222800, nsec := 0, offset := 3600 } ∧
      readCloudEvent (requestOf "evt-1".toList "src-a".toList "1.0".toList "audit.log".toList
          "0000-01-01T00:00:00+01:00".toList (readerOf exampleBody)) =
        .ok (recordOf "evt-1".toList "src-a".toList "1.0".toList "audit.log".toList
          { sec := -62167222800, nsec := 0, offset := 3600 } exampleBody) ∧
      (parseCloudEvent envelopeWorld (recordOf "evt-1".toList "src-a".toList "1.0".toList
          "audit.log".toList { sec := -62167222800, nsec := 0, offset := 3600 } exampleBody)).Time
        = some { sec := -62167222800, nsec := 0, offset := 3600 } ∧
      timeParse (TimestampString { sec := -62167222800, nsec := 0, offset := 3600 }) =
        .error { Layout := RFC3339,
                 Value := TimestampString { sec := -62167222800, nsec := 0, offset := 3600 } }) ∧
    (parseRFC3339 "0001-01-01T00:00:00Z".toList = some Time.zero ∧
      readCloudEvent (requestOf "evt-1".toList "src-a".toList "1.0".toList "audit.log".toList
          "0001-01-01T00:00:00Z".toList (readerOf exampleBody)) =
        .ok (recordOf "evt-1".toList "src-a".toList "1.0".toList "audit.log".toList
          Time.zero exampleBody) ∧
      (parseCloudEvent envelopeWorld (recordOf "evt-1".toList "src-a".toList "1.0".toList
          "audit.log".toList Time.zero exampleBody)).Time = none) :=
  ⟨⟨rfl, rfl, by decide, rfl⟩, ⟨rfl, rfl, by decide⟩⟩

/-- C3, amended: for every `ce-time` value that parses to a time `t` (every
well-formed RFC 3339 value that parses is one), the envelope built from the
extracted record carries `t` itself unless `t` is the zero time, January 1 of
year 1 at 00:00:00 UTC, for which it carries no time.  The text the envelope
writes for the time it carries, which is the time in UTC in the layout
`RFC3339Nano`, parses again to an instant equal to `t`, down to the
nanosecond, whenever the year of `t` in UTC lies in `0..9999`.  The bytes the
handler sends are the marshalled form of that envelope. -/
theorem envelope_time_round_trips (w : World) (r : Request) (ce : CE) (t : Time)
    (hp : timeParse (r.Header.Get "ce-time".toList) = .ok t)
    (hr : readCloudEvent r = .ok ce) :
    (t.IsZero = true → (parseCloudEvent w ce).Time = none) ∧
    (t.IsZero = false → (parseCloudEvent w ce).Time = some t) ∧
    (∀ carried, (parseCloudEvent w ce).Time = some carried →
      carried = t ∧
      (0 ≤ t.UTC.Year ∧ t.UTC.Year ≤ 9999 →
        ∃ u, timeParse (TimestampString carried) = .ok u ∧ u.Equal t)) ∧
    (∀ req, Effect.httpDo req ∈ DirektivListener w r →
      w.marshalEvent (parseCloudEvent w ce) = .ok req.Body) := by
  obtain ⟨hct, -, -⟩ := readCloudEvent_ok_inv r ce hr
  rw [hp] at hct
  have hce : ce.Ctime = t := by
    cases hct
    rfl
  have htime := parseCloudEvent_Time w ce
  rw [hce] at htime
  refine ⟨?_, ?_, ?_, ?_⟩
  · intro hz
    rw [htime, if_pos hz]
  · intro hz
    rw [htime, hz]
    rfl
  · intro carried hc
    rw [htime] at hc
    have hct2 : carried = t := by
      split at hc
      · cases hc
      · cases hc
        rfl
    subst hct2
    refine ⟨rfl, ?_⟩
    intro hy
    refine ⟨carried.UTC, ?_, ⟨rfl, rfl⟩⟩
    exact timeParse_timestampString carried (timeParse_nsec_lt _ carried hp) hy
  · intro req hmem
    rcases listener_cases w r with ⟨e1, he, -⟩ | ⟨ce1, e1, -, -, ht⟩ |
        ⟨ce1, d1, e1, hr1, -, -, ht⟩ | ⟨ce1, d1, data, hr1, -, -, ht⟩
    · rw [hr] at he
      cases he
    · rw [ht] at hmem
      simp at hmem
    · rw [hr] at hr1
      cases hr1
      rw [ht] at hmem
      have hm2 : Effect.httpDo req ∈ (sendCloudEvent w (parseCloudEvent w ce)).1 := by
        simpa using hmem
      obtain ⟨data1, hmar, hreq, -⟩ := sendCloudEvent_request w _ req hm2
      rw [hmar, hreq]
    · rw [hr] at hr1
      cases hr1
      rw [ht] at hmem
      have hm2 : Effect.httpDo req ∈ (sendCloudEvent w (parseCloudEvent w ce)).1 := by
        have hne : ∀ d, Effect.httpDo req ≠ Effect.logPrintf responseFormat d := by
          intro d h
          cases h
        simpa [hne] using hmem
      obtain ⟨data1, hmar, hreq, -⟩ := sendCloudEvent_request w _ req hm2
      rw [hmar, hreq]

/-- Witness for the amended C3: `2024-02-29T23:59:59.5+05:30`, with a fraction
and an offset that is not UTC; the envelope carries the parsed time and writes
it as `2024-02-29T18:29:59.5Z`, which parses to the same instant. -/
theorem envelope_time_round_trips_witness :
    timeParse ((exampleRequest "2024-02-29T23:59:59.5+05:30".toList
        (readerOf exampleBody)).Header.Get "ce-time".toList) =
      .ok { sec := 1709231399, nsec := 500000000, offset := 19800 } ∧
    (parseCloudEvent envelopeWorld (recordOf "evt-1".toList "src-a".toList "1.0".toList
        "audit.log".toList { sec := 1709231399, nsec := 500000000, offset := 19800 }
        exampleBody)).Time = some { sec := 1709231399, nsec := 500000000, offset := 19800 } ∧
    (∃ u, timeParse (TimestampString { sec := 1709231399, nsec := 500000000, offset := 19800 })
        = .ok u ∧ u.Equal { sec := 1709231399, nsec := 500000000, offset := 19800 }) ∧
    TimestampString { sec := 1709231399, nsec := 500000000, offset := 19800 } =
      "2024-02-29T18:29:59.5Z".toList := by
  have h := envelope_time_round_trips envelopeWorld
    (exampleRequest "2024-02-29T23:59:59.5+05:30".toList (readerOf exampleBody))
    (recordOf "evt-1".toList "src-a".toList "1.0".toList "audit.log".toList
      { sec := 1709231399, nsec := 500000000, offset := 19800 } exampleBody)
    { sec := 1709231399, nsec := 500000000, offset := 19800 } rfl rfl
  have h2 := h.2.1 (by decide)
  exact ⟨rfl, h2, ((h.2.2.1 _ h2).2 (by decide)), by decide⟩

end Direktiv
